import Mathlib

/-!
# RAY_VarianceFilter: a shallow embedding and its verified properties

The embedding follows `src/RAY_VarianceFilter.C` and `src/RAY_VarianceFilter.h`.

Modelling conventions
* `float` values are rationals (`ℚ`), without infinity and NaN. The `float`
  expressions that are floored to an `int` half-width are rounded as binary32
  does (`roundToFloat`); sums, extrema and differences of sample values are
  exact.
* `int` values are unbounded integers (`Int`); `x >> 1` is the arithmetic
  shift `x >>> (1 : Nat)`, `x & 1` being non-zero is `x % 2 ≠ 0`.
* C arrays reached through a pointer (`colourdata`, the scratch buffers
  `minRGB` and `maxRGB`) are maps from an index to a value.
* The destination is written strictly sequentially through an incremented
  pointer; it is modelled as the list of values written, in order.
* A counted `for` loop is `forRange`, which runs its body on consecutive
  values of the loop variable.
-/

set_option autoImplicit false

namespace HDK_Sample

/-! ## Host library primitives -/

/-- Modelled from the spec: the host library clamp `SYSclamp` of `SYS_Math.h`,
which is not under `src/`; it restricts a value to the closed range
`[lo, hi]`. -/
def SYSclamp (v lo hi : ℚ) : ℚ :=
  if v < lo then lo else if v > hi then hi else v

/-- The two-argument host minimum `SYSmin`. -/
def SYSmin {α : Type} [LinearOrder α] (a b : α) : α := min a b

/-- The two-argument host maximum `SYSmax`. -/
def SYSmax {α : Type} [LinearOrder α] (a b : α) : α := max a b

/-- The three-argument host maximum `SYSmax`. -/
def SYSmax3 (a b c : ℚ) : ℚ := max (max a b) c

/-! ## Binary32 arithmetic

The half-widths are integers obtained by flooring a `float` product, so the
rounding of that product decides them. `roundToFloat` is IEEE 754 binary32
rounding (24 significant bits, round to nearest, ties to even, subnormals
below `2 ^ -126`); values beyond the finite range are not modelled. -/

/-- Rounding to the nearest integer, a tie going to the even one. -/
def roundHalfEven (x : ℚ) : Int :=
  if x - ⌊x⌋ < 1 / 2 then ⌊x⌋
  else if 1 / 2 < x - ⌊x⌋ then ⌊x⌋ + 1
  else if ⌊x⌋ % 2 = 0 then ⌊x⌋ else ⌊x⌋ + 1

/-- The exponent of the unit in the last place of binary32 at `q`: `23` below
the exponent of the binade of `q`, and `-149` throughout the subnormal
range. -/
def floatUlpExp (q : ℚ) : Int := max (Int.log 2 |q|) (-126) - 23

/-- The binary32 number nearest to `q`, ties to even. -/
def roundToFloat (q : ℚ) : ℚ :=
  (roundHalfEven (q / (2 : ℚ) ^ floatUlpExp q) : ℚ) * (2 : ℚ) ^ floatUlpExp q

/-- The conversion `float(n)` of an `int`. -/
def floatOfInt (n : Int) : ℚ := roundToFloat (n : ℚ)

/-- The `float` product `a * b`. -/
def fmul (a b : ℚ) : ℚ := roundToFloat (a * b)

/-- The `float` sum `a + b`. -/
def fadd (a b : ℚ) : ℚ := roundToFloat (a + b)

/-- The `float` expression `float(samplesperpixel)*0.5f*width` of lines 153,
165, 190 and 191, evaluated left to right. -/
def floatHalfProduct (samplesperpixel : Int) (width : ℚ) : ℚ :=
  fmul (fmul (floatOfInt samplesperpixel) (1 / 2)) width

/-- The loop `for (int i = lo; ; ++i)` run for `n` iterations: the body
receives the loop variable and the current state. -/
def forRange {σ : Type} (body : Int → σ → σ) : Nat → Int → σ → σ
  | 0, _, st => st
  | n + 1, i, st => forRange body n (i + 1) (body i st)

/-- The loop `for (int i = lo; i < hi; ++i)`; it runs `hi - lo` times, and
not at all when `hi ≤ lo`. -/
def forLt {σ : Type} (lo hi : Int) (body : Int → σ → σ) (st : σ) : σ :=
  forRange body (hi - lo).toNat lo st

/-- The loop `for (int i = lo; i <= hi; ++i)`; it runs `hi - lo + 1` times,
and not at all when `hi < lo`. -/
def forLe {σ : Type} (lo hi : Int) (body : Int → σ → σ) (st : σ) : σ :=
  forRange body (hi + 1 - lo).toNat lo st

/-! ## The filter object -/

/-- The data members of `RAY_VarianceFilter` (header, lines 99-149). -/
structure RAY_VarianceFilter where
  mySamplesPerPixelX : Int
  mySamplesPerPixelY : Int
  myUseColourGradient : Bool
  myUseZGradient : Bool
  myUseOpID : Bool
  myColourGradientThreshold : ℚ
  myZGradientThreshold : ℚ
  myColourGradientWidth : ℚ
  myZGradientWidth : ℚ
  myOpIDWidth : ℚ
  myColourSumX2 : ℚ
  myColourSumY2 : ℚ
  myZSumX2 : ℚ
  myZSumY2 : ℚ
  myColourSamplesHalfX : Int
  myColourSamplesHalfY : Int
  myZSamplesHalfX : Int
  myZSamplesHalfY : Int
  myOpIDSamplesHalfX : Int
  myOpIDSamplesHalfY : Int
  deriving DecidableEq

/-- The default constructor. It initialises ten members; the normalising
sums and the half-widths are left as they are in the storage `raw` the
object is built in. -/
def RAY_VarianceFilter.ctor (raw : RAY_VarianceFilter) : RAY_VarianceFilter :=
  { raw with
    mySamplesPerPixelX := 1
    mySamplesPerPixelY := 1
    myUseColourGradient := true
    myUseZGradient := true
    myUseOpID := true
    myColourGradientThreshold := 1 / 10
    myZGradientThreshold := 5 / 1000
    myColourGradientWidth := 3
    myZGradientWidth := 3
    myOpIDWidth := 3 }

/-- Storage with every member zero, used to build concrete filter objects. -/
def zeroStorage : RAY_VarianceFilter :=
  { mySamplesPerPixelX := 0, mySamplesPerPixelY := 0,
    myUseColourGradient := false, myUseZGradient := false, myUseOpID := false,
    myColourGradientThreshold := 0, myZGradientThreshold := 0,
    myColourGradientWidth := 0, myZGradientWidth := 0, myOpIDWidth := 0,
    myColourSumX2 := 0, myColourSumY2 := 0, myZSumX2 := 0, myZSumY2 := 0,
    myColourSamplesHalfX := 0, myColourSamplesHalfY := 0,
    myZSamplesHalfX := 0, myZSamplesHalfY := 0,
    myOpIDSamplesHalfX := 0, myOpIDSamplesHalfY := 0 }

/-- The options left by `args.stripOptions("c:o:s:w:z:")`: for each letter,
`none` when `args.found` is false and otherwise the value `args.fargp`
returns. -/
structure UT_Args where
  c : Option ℚ := none
  o : Option ℚ := none
  s : Option ℚ := none
  w : Option ℚ := none
  z : Option ℚ := none

/-- The colour part of `setArgs` (lines 87-101). -/
def setArgsColour (args : UT_Args) (f : RAY_VarianceFilter) : RAY_VarianceFilter :=
  match args.c with
  | none => f
  | some c =>
    let f := { f with myColourGradientThreshold := c }
    let f := { f with myUseColourGradient := decide (f.myColourGradientThreshold ≥ 0) }
    match f.myUseColourGradient, args.w with
    | true, some w =>
      let f := { f with myColourGradientWidth := w }
      let f := if f.myColourGradientWidth < 0 then { f with myUseColourGradient := false } else f
      { f with myColourGradientWidth := SYSclamp f.myColourGradientWidth 1 1024 }
    | _, _ => f

/-- The Op ID part of `setArgs` (lines 102-107). -/
def setArgsOpID (args : UT_Args) (f : RAY_VarianceFilter) : RAY_VarianceFilter :=
  match args.o with
  | none => f
  | some o =>
    let f := { f with myOpIDWidth := o }
    let f := { f with myUseOpID := decide (f.myOpIDWidth ≥ 0) }
    { f with myOpIDWidth := SYSclamp f.myOpIDWidth 1 1024 }

/-- The z-depth part of `setArgs` (lines 108-122). -/
def setArgsZ (args : UT_Args) (f : RAY_VarianceFilter) : RAY_VarianceFilter :=
  match args.z with
  | none => f
  | some z =>
    let f := { f with myZGradientThreshold := z }
    let f := { f with myUseZGradient := decide (f.myZGradientThreshold ≥ 0) }
    match f.myUseZGradient, args.s with
    | true, some s =>
      let f := { f with myZGradientWidth := s }
      let f := if f.myZGradientWidth < 0 then { f with myUseZGradient := false } else f
      { f with myZGradientWidth := SYSclamp f.myZGradientWidth 1 1024 }
    | _, _ => f

/-- `RAY_VarianceFilter::setArgs`: the three blocks in source order. -/
def RAY_VarianceFilter.setArgs (f : RAY_VarianceFilter) (args : UT_Args) :
    RAY_VarianceFilter :=
  setArgsZ args (setArgsOpID args (setArgsColour args f))

/-- `RAY_VarianceFilter::getFilterWidth`: the pair `(x, y)` it stores. -/
def RAY_VarianceFilter.getFilterWidth (f : RAY_VarianceFilter) : ℚ × ℚ :=
  let filterwidth := SYSmax3 (if f.myUseColourGradient then f.myColourGradientWidth else 1)
                             (if f.myUseZGradient then f.myZGradientWidth else 1)
                             (if f.myUseOpID then f.myOpIDWidth else 1)
  (filterwidth, filterwidth)

/-- `RAYcomputeSumX2`: the returned sum, paired with the value stored in the
reference parameter `halfsamplewidth`. The half-width is the floor of the
binary32 value of its expression; the sum is accumulated exactly. -/
def RAYcomputeSumX2 (samplesperpixel : Int) (width : ℚ) : ℚ × Int :=
  let sumx2 : ℚ := 0
  if samplesperpixel % 2 ≠ 0 then
    let halfsamplewidth : Int := ⌊floatHalfProduct samplesperpixel width⌋
    let sumx2 := forLe (-halfsamplewidth) halfsamplewidth
      (fun i sumx2 =>
        let x : ℚ := (i : ℚ) / (samplesperpixel : ℚ)
        sumx2 + x * x) sumx2
    (sumx2, halfsamplewidth)
  else
    let halfsamplewidth : Int := ⌊fadd (floatHalfProduct samplesperpixel width) (1 / 2)⌋
    let sumx2 := forLt (-halfsamplewidth) halfsamplewidth
      (fun i sumx2 =>
        let x : ℚ := ((i : ℚ) + 1 / 2) / (samplesperpixel : ℚ)
        sumx2 + x * x) sumx2
    (sumx2, halfsamplewidth)

/-- `RAY_VarianceFilter::prepFilter`. -/
def RAY_VarianceFilter.prepFilter (f : RAY_VarianceFilter)
    (samplesperpixelx samplesperpixely : Int) : RAY_VarianceFilter :=
  let f := { f with mySamplesPerPixelX := samplesperpixelx }
  let f := { f with mySamplesPerPixelY := samplesperpixely }
  let cx := RAYcomputeSumX2 f.mySamplesPerPixelX f.myColourGradientWidth
  let f := { f with myColourSumX2 := cx.1, myColourSamplesHalfX := cx.2 }
  let cy := RAYcomputeSumX2 f.mySamplesPerPixelY f.myColourGradientWidth
  let f := { f with myColourSumY2 := cy.1, myColourSamplesHalfY := cy.2 }
  let zx := RAYcomputeSumX2 f.mySamplesPerPixelX f.myZGradientWidth
  let f := { f with myZSumX2 := zx.1, myZSamplesHalfX := zx.2 }
  let zy := RAYcomputeSumX2 f.mySamplesPerPixelY f.myZGradientWidth
  let f := { f with myZSumY2 := zy.1, myZSamplesHalfY := zy.2 }
  let f := { f with
    myOpIDSamplesHalfX :=
      ⌊fadd (floatHalfProduct f.mySamplesPerPixelX f.myOpIDWidth)
        (if f.mySamplesPerPixelX % 2 ≠ 0 then 0 else 1 / 2)⌋ }
  { f with
    myOpIDSamplesHalfY :=
      ⌊fadd (floatHalfProduct f.mySamplesPerPixelY f.myOpIDWidth)
        (if f.mySamplesPerPixelY % 2 ≠ 0 then 0 else 1 / 2)⌋ }

/-! ## The per-tile reduction -/

/-- The sample bounds `filter` computes for one destination pixel
(lines 234-262), under the names of the source. -/
structure SampleBounds where
  sourcefirstx : Int
  sourcefirsty : Int
  sourcelastx : Int
  sourcelasty : Int
  sourcefirstcx : Int
  sourcefirstcy : Int
  sourcefirstzx : Int
  sourcefirstzy : Int
  sourcefirstox : Int
  sourcefirstoy : Int
  sourcelastcx : Int
  sourcelastcy : Int
  sourcelastzx : Int
  sourcelastzy : Int
  sourcelastox : Int
  sourcelastoy : Int
  sourcefirstrx : Int
  sourcefirstry : Int
  sourcelastrx : Int
  sourcelastry : Int

/-- Lines 234-262 of `filter`: the pixel's own block, the three detector
windows, and the rectangle that is scanned. Only the colour window widens
the scanned rectangle; the z-depth and Op ID blocks are commented out in the
source. -/
def RAY_VarianceFilter.sampleBounds (f : RAY_VarianceFilter)
    (destxoffsetinsource destyoffsetinsource destx desty : Int) : SampleBounds :=
  let sourcefirstx := destxoffsetinsource + destx * f.mySamplesPerPixelX
  let sourcefirsty := destyoffsetinsource + desty * f.mySamplesPerPixelY
  let sourcelastx := sourcefirstx + f.mySamplesPerPixelX - 1
  let sourcelasty := sourcefirsty + f.mySamplesPerPixelY - 1
  let sourcefirstcx := sourcefirstx + (f.mySamplesPerPixelX >>> (1 : Nat)) - f.myColourSamplesHalfX
  let sourcefirstcy := sourcefirsty + (f.mySamplesPerPixelY >>> (1 : Nat)) - f.myColourSamplesHalfY
  let sourcefirstzx := sourcefirstx + (f.mySamplesPerPixelX >>> (1 : Nat)) - f.myZSamplesHalfX
  let sourcefirstzy := sourcefirsty + (f.mySamplesPerPixelY >>> (1 : Nat)) - f.myZSamplesHalfY
  let sourcefirstox := sourcefirstx + (f.mySamplesPerPixelX >>> (1 : Nat)) - f.myOpIDSamplesHalfX
  let sourcefirstoy := sourcefirsty + (f.mySamplesPerPixelY >>> (1 : Nat)) - f.myOpIDSamplesHalfY
  let sourcelastcx := sourcefirstx + ((f.mySamplesPerPixelX - 1) >>> (1 : Nat)) + f.myColourSamplesHalfX
  let sourcelastcy := sourcefirsty + ((f.mySamplesPerPixelY - 1) >>> (1 : Nat)) + f.myColourSamplesHalfY
  let sourcelastzx := sourcefirstx + ((f.mySamplesPerPixelX - 1) >>> (1 : Nat)) + f.myZSamplesHalfX
  let sourcelastzy := sourcefirsty + ((f.mySamplesPerPixelY - 1) >>> (1 : Nat)) + f.myZSamplesHalfY
  let sourcelastox := sourcefirstx + ((f.mySamplesPerPixelX - 1) >>> (1 : Nat)) + f.myOpIDSamplesHalfX
  let sourcelastoy := sourcefirsty + ((f.mySamplesPerPixelY - 1) >>> (1 : Nat)) + f.myOpIDSamplesHalfY
  let sourcefirstrx := sourcefirstx
  let sourcefirstry := sourcefirsty
  let sourcelastrx := sourcelastx
  let sourcelastry := sourcelasty
  let sourcefirstrx := SYSmin sourcefirstrx sourcefirstcx
  let sourcefirstry := SYSmin sourcefirstry sourcefirstcy
  let sourcelastrx := SYSmax sourcelastrx sourcelastcx
  let sourcelastry := SYSmax sourcelastry sourcelastcy
  { sourcefirstx, sourcefirsty, sourcelastx, sourcelasty,
    sourcefirstcx, sourcefirstcy, sourcefirstzx, sourcefirstzy,
    sourcefirstox, sourcefirstoy, sourcelastcx, sourcelastcy,
    sourcelastzx, sourcelastzy, sourcelastox, sourcelastoy,
    sourcefirstrx, sourcefirstry, sourcelastrx, sourcelastry }

/-- The two scratch buffers `minRGB` and `maxRGB` of one pixel. -/
structure Scratch where
  minRGB : Int → ℚ
  maxRGB : Int → ℚ

/-- Lines 283-287: the scratch buffers are set to the sentinels `1000` and
`-1000` on the channels `0 .. vectorsize - 1`. -/
def initScratch (vectorsize : Int) (buf : Scratch) : Scratch :=
  forLt 0 vectorsize
    (fun i buf =>
      { minRGB := Function.update buf.minRGB i 1000
        maxRGB := Function.update buf.maxRGB i (-1000) }) buf

/-- Lines 301-304: one sample is folded into the per-channel extrema. -/
def accumulateSample (vectorsize : Int) (colourdata : Int → ℚ) (sourcei : Int)
    (buf : Scratch) : Scratch :=
  forLt 0 vectorsize
    (fun i buf =>
      { minRGB := Function.update buf.minRGB i
          (SYSmin (buf.minRGB i) (colourdata (vectorsize * sourcei + i)))
        maxRGB := Function.update buf.maxRGB i
          (SYSmax (buf.maxRGB i) (colourdata (vectorsize * sourcei + i))) }) buf

/-- Lines 291-306: the body of the `sourcey` loop, one row of the scanned
rectangle. -/
def scanRow (vectorsize : Int) (colourdata : Int → ℚ) (sourcewidth : Int)
    (b : SampleBounds) (sourcey : Int) (buf : Scratch) : Scratch :=
  forLe b.sourcefirstrx b.sourcelastrx
    (fun sourcex buf =>
      let sourcei := sourcex + sourcewidth * sourcey
      if sourcex ≥ b.sourcefirstcx ∧ sourcex ≤ b.sourcelastcx
          ∧ sourcey ≥ b.sourcefirstcy ∧ sourcey ≤ b.sourcelastcy then
        accumulateSample vectorsize colourdata sourcei buf
      else buf) buf

/-- Lines 279-307: the scratch buffers of one pixel after the scan. The
flag `isedge` of the source is set to `false` and never assigned again, so
the conjunct `!isedge` of the loop condition always holds. The buffers start
from arbitrary storage, here zero. -/
def scanPixel (vectorsize : Int) (colourdata : Int → ℚ) (sourcewidth : Int)
    (b : SampleBounds) : Scratch :=
  let buf : Scratch := { minRGB := fun _ => 0, maxRGB := fun _ => 0 }
  let buf := initScratch vectorsize buf
  forLe b.sourcefirstry b.sourcelastry
    (fun sourcey buf => scanRow vectorsize colourdata sourcewidth b sourcey buf) buf

/-- The body of the `destx` loop (lines 231-349): the bounds, the scan, and
the `vectorsize` values written through `destination`. -/
def RAY_VarianceFilter.filterPixel (f : RAY_VarianceFilter) (vectorsize : Int)
    (colourdata : Int → ℚ) (sourcewidth : Int)
    (destxoffsetinsource destyoffsetinsource : Int) (desty destx : Int)
    (destination : List ℚ) : List ℚ :=
  let b := f.sampleBounds destxoffsetinsource destyoffsetinsource destx desty
  let buf := scanPixel vectorsize colourdata sourcewidth b
  forLt 0 vectorsize
    (fun i destination => destination ++ [buf.maxRGB i - buf.minRGB i]) destination

/-- `RAY_VarianceFilter::filter`: the values written to `destination`, in
order. `colourdata` is the array `getSampleData(source, channel)`. -/
def RAY_VarianceFilter.filter (f : RAY_VarianceFilter) (vectorsize : Int)
    (colourdata : Int → ℚ) (sourcewidth sourceheight destwidth destheight : Int)
    (destxoffsetinsource destyoffsetinsource : Int) : List ℚ :=
  let _ := sourceheight
  forLt 0 destheight
    (fun desty destination =>
      forLt 0 destwidth
        (fun destx destination =>
          f.filterPixel vectorsize colourdata sourcewidth
            destxoffsetinsource destyoffsetinsource desty destx destination)
        destination) []

/-! ## Specification vocabulary and concrete inputs -/

/-- The value `r` is the running extremum, for the order `le`, of the start
value `init` and the values `val p` of the positions `p` in `S`: it is above
`init` and above every such value, and it is `init` or one of these values.
With `le` the order `≤` this is a maximum, with `≥` a minimum. -/
def IsExtremumFrom {ι : Type} (le : ℚ → ℚ → Prop) (init : ℚ) (S : ι → Prop)
    (val : ι → ℚ) (r : ℚ) : Prop :=
  le init r ∧ (∀ p, S p → le (val p) r) ∧ (r = init ∨ ∃ p, S p ∧ r = val p)

/-- The running maximum of `init` and the values over `S`. -/
def IsMaxFrom {ι : Type} (init : ℚ) (S : ι → Prop) (val : ι → ℚ) (r : ℚ) : Prop :=
  IsExtremumFrom (fun a b => a ≤ b) init S val r

/-- The running minimum of `init` and the values over `S`. -/
def IsMinFrom {ι : Type} (init : ℚ) (S : ι → Prop) (val : ι → ℚ) (r : ℚ) : Prop :=
  IsExtremumFrom (fun a b => b ≤ a) init S val r

/-- A loop body that rewrites channel `i` of both scratch buffers from the
value the channel holds. -/
def chanBody (fmin fmax : Int → ℚ → ℚ) : Int → Scratch → Scratch :=
  fun i buf =>
    { minRGB := Function.update buf.minRGB i (fmin i (buf.minRGB i))
      maxRGB := Function.update buf.maxRGB i (fmax i (buf.maxRGB i)) }

/-- The sample at column `p.1` and row `p.2` lies in the colour window: the
membership test of line 299. -/
def SampleBounds.inColourWindow (b : SampleBounds) (p : Int × Int) : Prop :=
  p.1 ≥ b.sourcefirstcx ∧ p.1 ≤ b.sourcelastcx ∧ p.2 ≥ b.sourcefirstcy ∧ p.2 ≤ b.sourcelastcy

/-- The sample at column `p.1` and row `p.2` lies in the scanned rectangle:
the ranges of the loops of lines 289 and 291. -/
def SampleBounds.inScanned (b : SampleBounds) (p : Int × Int) : Prop :=
  b.sourcefirstrx ≤ p.1 ∧ p.1 ≤ b.sourcelastrx ∧ b.sourcefirstry ≤ p.2 ∧ p.2 ≤ b.sourcelastry

/-- Channel `k` of the sample at column `p.1` and row `p.2`, as `filter`
reads it: `colourdata[vectorsize*sourcei + k]` with
`sourcei = sourcex + sourcewidth*sourcey`. -/
def sampleValue (vectorsize : Int) (colourdata : Int → ℚ) (sourcewidth : Int) (k : Int)
    (p : Int × Int) : ℚ :=
  colourdata (vectorsize * (p.1 + sourcewidth * p.2) + k)

/-- The concatenation of the blocks `blk lo, blk (lo + 1), ...`, `n` of them. -/
def blocks (blk : Int → List ℚ) : Nat → Int → List ℚ
  | 0, _ => []
  | n + 1, lo => blk lo ++ blocks blk n (lo + 1)

/-- The values one pixel writes: `maxRGB[i] - minRGB[i]` for each channel. -/
def pixelBlock (f : RAY_VarianceFilter) (vectorsize : Int)
    (colourdata : Int → ℚ) (sourcewidth : Int)
    (destxoffsetinsource destyoffsetinsource : Int) (desty destx : Int) : List ℚ :=
  blocks (fun i =>
    [(scanPixel vectorsize colourdata sourcewidth
        (f.sampleBounds destxoffsetinsource destyoffsetinsource destx desty)).maxRGB i
      - (scanPixel vectorsize colourdata sourcewidth
        (f.sampleBounds destxoffsetinsource destyoffsetinsource destx desty)).minRGB i])
    vectorsize.toNat 0

/-- The default-constructed filter, prepared for one sample per pixel. -/
def defaultFilter : RAY_VarianceFilter :=
  (RAY_VarianceFilter.ctor zeroStorage).prepFilter 1 1

/-- The filter configured with `-c 0.1 -w 1`, prepared for one sample per
pixel. -/
def narrowFilter : RAY_VarianceFilter :=
  ((RAY_VarianceFilter.ctor zeroStorage).setArgs { c := some (1 / 10), w := some 1 }).prepFilter 1 1

/-- The filter configured with `-c -1 -z -1 -o -1` (every detector
disabled), prepared for one sample per pixel. -/
def allDisabledFilter : RAY_VarianceFilter :=
  ((RAY_VarianceFilter.ctor zeroStorage).setArgs
    { c := some (-1), z := some (-1), o := some (-1) }).prepFilter 1 1

/-- The configuration after `-c -1`: colour disabled, colour width `3`. -/
def colourOffWide : RAY_VarianceFilter :=
  (RAY_VarianceFilter.ctor zeroStorage).setArgs { c := some (-1) }

/-- The configuration after `-c 1 -w 1` followed by `-c -1`: colour
disabled, colour width `1`. -/
def colourOffNarrow : RAY_VarianceFilter :=
  ((RAY_VarianceFilter.ctor zeroStorage).setArgs { c := some 1, w := some 1 }).setArgs
    { c := some (-1) }

/-- A source whose sample `4` holds `2500` and every other sample `1500`. -/
def brightSource : Int → ℚ := fun i => if i = 4 then 2500 else 1500

/-- A source whose sample `j` holds `v` and every other sample `0`. -/
def outlierSource (j : Int) (v : ℚ) : Int → ℚ := fun i => if i = j then v else 0

/-- A sequence of `setArgs` calls, applied in order. -/
def setArgsSeq (f : RAY_VarianceFilter) (calls : List UT_Args) : RAY_VarianceFilter :=
  calls.foldl RAY_VarianceFilter.setArgs f

/-- The three stored widths lie in `[1, 1024]`. -/
def RAY_VarianceFilter.widthsInRange (f : RAY_VarianceFilter) : Prop :=
  (1 ≤ f.myColourGradientWidth ∧ f.myColourGradientWidth ≤ 1024)
  ∧ (1 ≤ f.myZGradientWidth ∧ f.myZGradientWidth ≤ 1024)
  ∧ (1 ≤ f.myOpIDWidth ∧ f.myOpIDWidth ≤ 1024)

/-- The closed form of the sum of squared offsets, in the words of the spec:
`h (h + 1) (2h + 1) / (3 n²)` for an odd number `n` of samples per pixel and
`h (4h² - 1) / (6 n²)` for an even one, `h` being the half-width. -/
def closedFormSumX2 (n h : Int) : ℚ :=
  if n % 2 ≠ 0 then
    (h : ℚ) * ((h : ℚ) + 1) * (2 * (h : ℚ) + 1) / (3 * (n : ℚ) ^ 2)
  else
    (h : ℚ) * (4 * (h : ℚ) ^ 2 - 1) / (6 * (n : ℚ) ^ 2)

/-- The samples of the colour window, as a finite set of positions. -/
def SampleBounds.colourWindow (b : SampleBounds) : Finset (Int × Int) :=
  Finset.Icc b.sourcefirstcx b.sourcelastcx ×ˢ Finset.Icc b.sourcefirstcy b.sourcelastcy

theorem forLe_eq_forRange {σ : Type} (lo hi : Int) (body : Int → σ → σ) (st : σ) :
    forLe lo hi body st = forRange body (hi + 1 - lo).toNat lo st := rfl

theorem forLt_eq_forRange {σ : Type} (lo hi : Int) (body : Int → σ → σ) (st : σ) :
    forLt lo hi body st = forRange body (hi - lo).toNat lo st := rfl

/-- A summing loop computes the sum of its terms over the range it visits. -/
theorem forRange_add_eq_sum (g : Int → ℚ) :
    ∀ (n : Nat) (lo : Int) (acc : ℚ),
      forRange (fun i s => s + g i) n lo acc
        = acc + ∑ i in Finset.Ico lo (lo + n), g i := by
  intro n
  induction n with
  | zero => intro lo acc; simp [forRange]
  | succ n ih =>
    intro lo acc
    have hsplit : Finset.Ico lo (lo + ((n + 1 : Nat) : Int))
        = insert lo (Finset.Ico (lo + 1) (lo + 1 + (n : Int))) := by
      ext j
      simp only [Finset.mem_Ico, Finset.mem_insert]
      push_cast
      omega
    have hnot : lo ∉ Finset.Ico (lo + 1) (lo + 1 + (n : Int)) := by
      simp
    rw [forRange, ih, hsplit, Finset.sum_insert hnot]
    ring

theorem forLe_add_eq_sum (g : Int → ℚ) (lo hi : Int) (acc : ℚ) :
    forLe lo hi (fun i s => s + g i) acc = acc + ∑ i in Finset.Icc lo hi, g i := by
  have hset : Finset.Ico lo (lo + ((hi + 1 - lo).toNat : Int)) = Finset.Icc lo hi := by
    ext j
    simp only [Finset.mem_Ico, Finset.mem_Icc]
    omega
  rw [forLe_eq_forRange, forRange_add_eq_sum, hset]

theorem forLt_add_eq_sum (g : Int → ℚ) (lo hi : Int) (acc : ℚ) :
    forLt lo hi (fun i s => s + g i) acc = acc + ∑ i in Finset.Ico lo hi, g i := by
  have hset : Finset.Ico lo (lo + ((hi - lo).toNat : Int)) = Finset.Ico lo hi := by
    ext j
    simp only [Finset.mem_Ico]
    omega
  rw [forLt_eq_forRange, forRange_add_eq_sum, hset]

/-! ## Binary32 rounding -/

theorem floor_le_roundHalfEven (x : ℚ) : ⌊x⌋ ≤ roundHalfEven x := by
  unfold roundHalfEven
  split_ifs <;> omega

theorem le_roundHalfEven (k : Int) (x : ℚ) (h : (k : ℚ) ≤ x) : k ≤ roundHalfEven x :=
  le_trans (Int.le_floor.mpr h) (floor_le_roundHalfEven x)

theorem roundHalfEven_intCast (k : Int) : roundHalfEven (k : ℚ) = k := by
  unfold roundHalfEven
  rw [Int.floor_intCast, sub_self, if_pos (by norm_num)]

theorem two_zpow_pos (e : Int) : (0 : ℚ) < (2 : ℚ) ^ e := zpow_pos (by norm_num) e

/-- Rounding does not fall below a grid point of the binade of its argument. -/
theorem le_roundToFloat_of_grid (x : ℚ) (k : Int)
    (h : (k : ℚ) * (2 : ℚ) ^ floatUlpExp x ≤ x) :
    (k : ℚ) * (2 : ℚ) ^ floatUlpExp x ≤ roundToFloat x := by
  have hpos := two_zpow_pos (floatUlpExp x)
  have hk : (k : ℚ) ≤ x / (2 : ℚ) ^ floatUlpExp x := (le_div_iff₀ hpos).mpr h
  have := le_roundHalfEven k _ hk
  unfold roundToFloat
  exact mul_le_mul_of_nonneg_right (by exact_mod_cast this) hpos.le

theorem roundToFloat_nonneg (x : ℚ) (h : 0 ≤ x) : 0 ≤ roundToFloat x := by
  have := le_roundToFloat_of_grid x 0 (by simpa using h)
  simpa using this

theorem roundToFloat_eq_self_of_grid (x : ℚ) (k : Int)
    (h : x = (k : ℚ) * (2 : ℚ) ^ floatUlpExp x) : roundToFloat x = x := by
  have hpos := two_zpow_pos (floatUlpExp x)
  have hk : x / (2 : ℚ) ^ floatUlpExp x = (k : ℚ) := by
    rw [div_eq_iff hpos.ne']
    exact h
  unfold roundToFloat
  rw [hk, roundHalfEven_intCast]
  exact h.symm

theorem floatUlpExp_le (q : ℚ) (e : Int) (h0 : q ≠ 0) (hq : |q| < (2 : ℚ) ^ (e + 24))
    (he : -149 ≤ e) : floatUlpExp q ≤ e := by
  unfold floatUlpExp
  have hpos : 0 < |q| := abs_pos.mpr h0
  have hq2 : |q| < ((2 : ℕ) : ℚ) ^ (e + 24) := by simpa using hq
  have hlog : Int.log 2 |q| < e + 24 := (Int.lt_zpow_iff_log_lt (by norm_num) hpos).mp hq2
  have : max (Int.log 2 |q|) (-126) ≤ e + 23 := max_le (by omega) (by omega)
  omega

theorem roundToFloat_zero : roundToFloat 0 = 0 := by
  unfold roundToFloat
  rw [zero_div]
  have : roundHalfEven (0 : ℚ) = 0 := by
    have := roundHalfEven_intCast 0
    simpa using this
  rw [this]
  simp

/-- A value `m * 2 ^ e` with `|m| < 2 ^ 24` and `e ≥ -149` is a binary32 number:
rounding leaves it as it is. -/
theorem roundToFloat_dyadic (m e : Int) (hm : |m| < 2 ^ 24) (he : -149 ≤ e) :
    roundToFloat ((m : ℚ) * (2 : ℚ) ^ e) = (m : ℚ) * (2 : ℚ) ^ e := by
  by_cases hm0 : m = 0
  · subst hm0
    simp [roundToFloat_zero]
  · have hq0 : (m : ℚ) * (2 : ℚ) ^ e ≠ 0 :=
      mul_ne_zero (by exact_mod_cast hm0) (two_zpow_pos e).ne'
    have hmq : |(m : ℚ)| < (2 : ℚ) ^ (24 : Int) := by
      have : ((|m| : Int) : ℚ) < ((2 ^ 24 : Int) : ℚ) := by exact_mod_cast hm
      rw [Int.cast_abs] at this
      norm_num at this ⊢
      exact this
    have habs : |(m : ℚ) * (2 : ℚ) ^ e| < (2 : ℚ) ^ (e + 24) := by
      rw [abs_mul, abs_of_pos (two_zpow_pos e), zpow_add₀ (by norm_num : (2 : ℚ) ≠ 0), mul_comm]
      exact mul_lt_mul_of_pos_left hmq (two_zpow_pos e)
    have hE := floatUlpExp_le _ e hq0 habs he
    obtain ⟨d, hd⟩ := Int.eq_ofNat_of_zero_le (by omega : 0 ≤ e - floatUlpExp ((m : ℚ) * (2 : ℚ) ^ e))
    refine roundToFloat_eq_self_of_grid _ (m * 2 ^ d) ?_
    have he2 : e = (d : Int) + floatUlpExp ((m : ℚ) * (2 : ℚ) ^ e) := by omega
    conv_lhs => rw [he2]
    rw [zpow_add₀ (by norm_num : (2 : ℚ) ≠ 0)]
    push_cast
    rw [zpow_natCast]
    ring

theorem roundToFloat_intCast (m : Int) (hm : |m| < 2 ^ 24) : roundToFloat (m : ℚ) = (m : ℚ) := by
  have := roundToFloat_dyadic m 0 hm (by decide)
  simpa using this

theorem roundToFloat_half (m : Int) (hm : |m| < 2 ^ 24) :
    roundToFloat ((m : ℚ) * (1 / 2)) = (m : ℚ) * (1 / 2) := by
  have := roundToFloat_dyadic m (-1) hm (by decide)
  have h2 : (2 : ℚ) ^ (-1 : Int) = 1 / 2 := by norm_num
  rw [h2] at this
  exact this

/-- Rounding does not fall below a binary32 number that its argument
reaches. -/
theorem le_roundToFloat (x : ℚ) (m e : Int) (hm0 : 0 < m) (hm : m < 2 ^ 24) (he : -149 ≤ e)
    (hxy : (m : ℚ) * (2 : ℚ) ^ e ≤ x) : (m : ℚ) * (2 : ℚ) ^ e ≤ roundToFloat x := by
  have hmq0 : (0 : ℚ) < (m : ℚ) := by exact_mod_cast hm0
  have hy0 : (0 : ℚ) < (m : ℚ) * (2 : ℚ) ^ e := mul_pos hmq0 (two_zpow_pos e)
  have hx0 : 0 < x := lt_of_lt_of_le hy0 hxy
  by_cases hE : floatUlpExp x ≤ e
  · obtain ⟨d, hd⟩ := Int.eq_ofNat_of_zero_le (by omega : 0 ≤ e - floatUlpExp x)
    have he2 : e = (d : Int) + floatUlpExp x := by omega
    have hgrid : (m : ℚ) * (2 : ℚ) ^ e = ((m * 2 ^ d : Int) : ℚ) * (2 : ℚ) ^ floatUlpExp x := by
      conv_lhs => rw [he2]
      rw [zpow_add₀ (by norm_num : (2 : ℚ) ≠ 0)]
      push_cast
      rw [zpow_natCast]
      ring
    rw [hgrid]
    exact le_roundToFloat_of_grid x _ (by rw [← hgrid]; exact hxy)
  · push_neg at hE
    have hE2 : floatUlpExp x = Int.log 2 |x| - 23 := by
      unfold floatUlpExp at hE ⊢
      have : max (Int.log 2 |x|) (-126) = Int.log 2 |x| := by
        apply max_eq_left
        by_contra hc
        push_neg at hc
        rw [max_eq_right hc.le] at hE
        omega
      rw [this]
    have hlog : ((2 : ℕ) : ℚ) ^ Int.log 2 |x| ≤ |x| :=
      Int.zpow_log_le_self (by norm_num) (abs_pos.mpr hx0.ne')
    rw [abs_of_pos hx0] at hlog hE2
    have hlog2 : (2 : ℚ) ^ Int.log 2 x ≤ x := by simpa using hlog
    have hgrid : (((2 ^ 23 : Int) : Int) : ℚ) * (2 : ℚ) ^ floatUlpExp x = (2 : ℚ) ^ Int.log 2 x := by
      have h23 : (((2 ^ 23 : Int) : Int) : ℚ) = (2 : ℚ) ^ (23 : Int) := by norm_num
      rw [h23, ← zpow_add₀ (by norm_num : (2 : ℚ) ≠ 0), hE2]
      congr 1
      omega
    have hge := le_roundToFloat_of_grid x (2 ^ 23) (by rw [hgrid]; exact hlog2)
    rw [hgrid] at hge
    refine le_trans ?_ hge
    have hmq : (m : ℚ) ≤ (2 : ℚ) ^ (24 : Int) := by
      have : ((m : Int) : ℚ) < ((2 ^ 24 : Int) : ℚ) := by exact_mod_cast hm
      norm_num at this ⊢
      exact this.le
    calc (m : ℚ) * (2 : ℚ) ^ e ≤ (2 : ℚ) ^ (24 : Int) * (2 : ℚ) ^ e :=
          mul_le_mul_of_nonneg_right hmq (two_zpow_pos e).le
      _ = (2 : ℚ) ^ (24 + e) := (zpow_add₀ (by norm_num : (2 : ℚ) ≠ 0) _ _).symm
      _ ≤ (2 : ℚ) ^ Int.log 2 x := zpow_le_zpow_right₀ (by norm_num) (by omega)

theorem floatUlpExp_of_binade (q : ℚ) (L : Int) (hL : -126 ≤ L)
    (hlo : (2 : ℚ) ^ L ≤ q) (hhi : q < (2 : ℚ) ^ (L + 1)) : floatUlpExp q = L - 23 := by
  have hq0 : 0 < q := lt_of_lt_of_le (two_zpow_pos L) hlo
  have h1 : L ≤ Int.log 2 q :=
    (Int.zpow_le_iff_le_log (by norm_num) hq0).mp (by simpa using hlo)
  have h2 : Int.log 2 q < L + 1 :=
    (Int.lt_zpow_iff_log_lt (by norm_num) hq0).mp (by simpa using hhi)
  unfold floatUlpExp
  rw [abs_of_pos hq0, max_eq_left (by omega)]
  omega

/-- Rounding a value of the binade `[2 ^ L, 2 ^ (L + 1))`. -/
theorem roundToFloat_of_binade (q : ℚ) (L k : Int) (hL : -126 ≤ L)
    (hlo : (2 : ℚ) ^ L ≤ q) (hhi : q < (2 : ℚ) ^ (L + 1))
    (hk : roundHalfEven (q / (2 : ℚ) ^ (L - 23)) = k) :
    roundToFloat q = (k : ℚ) * (2 : ℚ) ^ (L - 23) := by
  unfold roundToFloat
  rw [floatUlpExp_of_binade q L hL hlo hhi, hk]

theorem roundHalfEven_up (x : ℚ) (f : Int) (hf : ⌊x⌋ = f) (h : 1 / 2 < x - (f : ℚ)) :
    roundHalfEven x = f + 1 := by
  unfold roundHalfEven
  rw [hf, if_neg (not_lt.mpr h.le), if_pos h]

theorem roundHalfEven_tie_odd (x : ℚ) (f : Int) (hf : ⌊x⌋ = f) (h : x - (f : ℚ) = 1 / 2)
    (hodd : f % 2 ≠ 0) : roundHalfEven x = f + 1 := by
  unfold roundHalfEven
  rw [hf, h, if_neg (lt_irrefl _), if_neg (lt_irrefl _), if_neg hodd]

theorem fmul_nonneg (a b : ℚ) (ha : 0 ≤ a) (hb : 0 ≤ b) : 0 ≤ fmul a b :=
  roundToFloat_nonneg _ (mul_nonneg ha hb)

theorem fadd_nonneg (a b : ℚ) (ha : 0 ≤ a) (hb : 0 ≤ b) : 0 ≤ fadd a b :=
  roundToFloat_nonneg _ (add_nonneg ha hb)

theorem floatHalfProduct_nonneg (n : Int) (width : ℚ) (hn : 0 ≤ n) (hwidth : 0 ≤ width) :
    0 ≤ floatHalfProduct n width := by
  have hn0 : (0 : ℚ) ≤ (n : ℚ) := by exact_mod_cast hn
  exact fmul_nonneg _ _ (fmul_nonneg _ _ (roundToFloat_nonneg _ hn0) (by norm_num)) hwidth

/-- For a count below `2 ^ 24` the conversion and the halving are exact: only
the product with the width is rounded. -/
theorem floatHalfProduct_eq (n : Int) (width : ℚ) (hn : |n| < 2 ^ 24) :
    floatHalfProduct n width = roundToFloat ((n : ℚ) * (1 / 2) * width) := by
  unfold floatHalfProduct fmul floatOfInt
  rw [roundToFloat_intCast n hn, roundToFloat_half n hn]

theorem floatHalfProduct_of_half (n m : Int) (width : ℚ) (hn : |n| < 2 ^ 24)
    (hm : |m| < 2 ^ 24) (h : (n : ℚ) * (1 / 2) * width = (m : ℚ) * (1 / 2)) :
    floatHalfProduct n width = (m : ℚ) * (1 / 2) := by
  rw [floatHalfProduct_eq n width hn, h, roundToFloat_half m hm]

theorem fadd_of_half (a b : ℚ) (m : Int) (hm : |m| < 2 ^ 24)
    (h : a + b = (m : ℚ) * (1 / 2)) : fadd a b = (m : ℚ) * (1 / 2) := by
  unfold fadd
  rw [h, roundToFloat_half m hm]

/-- Rounding does not fall below a half-integer that its argument reaches. -/
theorem half_le_roundToFloat (x : ℚ) (m : Int) (hm0 : 0 < m) (hm : m < 2 ^ 24)
    (h : (m : ℚ) * (1 / 2) ≤ x) : (m : ℚ) * (1 / 2) ≤ roundToFloat x := by
  have h2 : (2 : ℚ) ^ (-1 : Int) = 1 / 2 := by norm_num
  have := le_roundToFloat x m (-1) hm0 hm (by decide) (by rw [h2]; exact h)
  rw [h2] at this
  exact this

/-- For a count of at least `2` and a width of at least `1` the rounded
product is at least `1`, however large the count. -/
theorem one_le_floatHalfProduct (n : Int) (width : ℚ) (hn : 2 ≤ n) (hwidth : 1 ≤ width) :
    1 ≤ floatHalfProduct n width := by
  have hn2 : (2 : ℚ) ≤ (n : ℚ) := by exact_mod_cast hn
  have ha : (2 : ℚ) ≤ floatOfInt n := by
    have := half_le_roundToFloat (n : ℚ) 4 (by decide) (by decide) (by norm_num; linarith)
    unfold floatOfInt
    norm_num at this
    exact this
  have hb : (1 : ℚ) ≤ fmul (floatOfInt n) (1 / 2) := by
    have := half_le_roundToFloat (floatOfInt n * (1 / 2)) 2 (by decide) (by decide)
      (by norm_num; linarith)
    unfold fmul
    norm_num at this
    norm_num
    exact this
  have := half_le_roundToFloat (fmul (floatOfInt n) (1 / 2) * width) 2 (by decide) (by decide)
    (by norm_num; nlinarith)
  unfold floatHalfProduct
  unfold fmul at this ⊢
  norm_num at this
  norm_num
  exact this

/-! ## The window planner `RAYcomputeSumX2` -/

theorem RAYcomputeSumX2_odd_half (samplesperpixel : Int) (width : ℚ)
    (hodd : samplesperpixel % 2 ≠ 0) :
    (RAYcomputeSumX2 samplesperpixel width).2
      = ⌊floatHalfProduct samplesperpixel width⌋ := by
  simp [RAYcomputeSumX2, hodd]

theorem RAYcomputeSumX2_odd_sum (samplesperpixel : Int) (width : ℚ)
    (hodd : samplesperpixel % 2 ≠ 0) :
    (RAYcomputeSumX2 samplesperpixel width).1
      = ∑ i in Finset.Icc (-⌊floatHalfProduct samplesperpixel width⌋)
          ⌊floatHalfProduct samplesperpixel width⌋,
          ((i : ℚ) / (samplesperpixel : ℚ)) ^ 2 := by
  have h := forLe_add_eq_sum (fun i => (i : ℚ) / (samplesperpixel : ℚ) * ((i : ℚ) / (samplesperpixel : ℚ)))
    (-⌊floatHalfProduct samplesperpixel width⌋) ⌊floatHalfProduct samplesperpixel width⌋ 0
  simp only [RAYcomputeSumX2, hodd, ne_eq, not_false_eq_true, if_true]
  rw [h, zero_add]
  exact Finset.sum_congr rfl (fun i _ => by ring)

theorem RAYcomputeSumX2_even_half (samplesperpixel : Int) (width : ℚ)
    (heven : samplesperpixel % 2 = 0) :
    (RAYcomputeSumX2 samplesperpixel width).2
      = ⌊fadd (floatHalfProduct samplesperpixel width) (1 / 2)⌋ := by
  simp [RAYcomputeSumX2, heven]

theorem RAYcomputeSumX2_even_sum (samplesperpixel : Int) (width : ℚ)
    (heven : samplesperpixel % 2 = 0) :
    (RAYcomputeSumX2 samplesperpixel width).1
      = ∑ i in Finset.Ico (-⌊fadd (floatHalfProduct samplesperpixel width) (1 / 2)⌋)
          ⌊fadd (floatHalfProduct samplesperpixel width) (1 / 2)⌋,
          (((i : ℚ) + 1 / 2) / (samplesperpixel : ℚ)) ^ 2 := by
  have h := forLt_add_eq_sum
    (fun i => ((i : ℚ) + 1 / 2) / (samplesperpixel : ℚ) * (((i : ℚ) + 1 / 2) / (samplesperpixel : ℚ)))
    (-⌊fadd (floatHalfProduct samplesperpixel width) (1 / 2)⌋)
    ⌊fadd (floatHalfProduct samplesperpixel width) (1 / 2)⌋ 0
  simp only [RAYcomputeSumX2, heven, ne_eq, not_true_eq_false, if_false]
  rw [h, zero_add]
  exact Finset.sum_congr rfl (fun i _ => by ring)

theorem RAYcomputeSumX2_half_nonneg (samplesperpixel : Int) (width : ℚ)
    (hspp : 1 ≤ samplesperpixel) (hwidth : 0 ≤ width) :
    0 ≤ (RAYcomputeSumX2 samplesperpixel width).2 := by
  have hp := floatHalfProduct_nonneg samplesperpixel width (by omega) hwidth
  by_cases hodd : samplesperpixel % 2 ≠ 0
  · rw [RAYcomputeSumX2_odd_half _ _ hodd]
    exact Int.floor_nonneg.mpr hp
  · have heven : samplesperpixel % 2 = 0 := by omega
    rw [RAYcomputeSumX2_even_half _ _ heven]
    exact Int.floor_nonneg.mpr (fadd_nonneg _ _ hp (by norm_num))

theorem RAYcomputeSumX2_sum_nonneg (samplesperpixel : Int) (width : ℚ) :
    0 ≤ (RAYcomputeSumX2 samplesperpixel width).1 := by
  by_cases hodd : samplesperpixel % 2 ≠ 0
  · rw [RAYcomputeSumX2_odd_sum _ _ hodd]
    exact Finset.sum_nonneg (fun i _ => sq_nonneg _)
  · have heven : samplesperpixel % 2 = 0 := by omega
    rw [RAYcomputeSumX2_even_sum _ _ heven]
    exact Finset.sum_nonneg (fun i _ => sq_nonneg _)

theorem RAYcomputeSumX2_sum_pos (samplesperpixel : Int) (width : ℚ)
    (hspp : 1 ≤ samplesperpixel)
    (hhalf : 1 ≤ (RAYcomputeSumX2 samplesperpixel width).2) :
    0 < (RAYcomputeSumX2 samplesperpixel width).1 := by
  have hs : (0 : ℚ) < (samplesperpixel : ℚ) := by exact_mod_cast (by omega : (0 : Int) < samplesperpixel)
  by_cases hodd : samplesperpixel % 2 ≠ 0
  · rw [RAYcomputeSumX2_odd_half _ _ hodd] at hhalf
    rw [RAYcomputeSumX2_odd_sum _ _ hodd]
    refine Finset.sum_pos' (fun i _ => sq_nonneg _) ⟨1, ?_, ?_⟩
    · simp only [Finset.mem_Icc]; omega
    · have : (0 : ℚ) < ((1 : Int) : ℚ) / (samplesperpixel : ℚ) := by
        rw [Int.cast_one]; positivity
      positivity
  · have heven : samplesperpixel % 2 = 0 := by omega
    rw [RAYcomputeSumX2_even_half _ _ heven] at hhalf
    rw [RAYcomputeSumX2_even_sum _ _ heven]
    refine Finset.sum_pos' (fun i _ => sq_nonneg _) ⟨0, ?_, ?_⟩
    · simp only [Finset.mem_Ico]; omega
    · have : (0 : ℚ) < (((0 : Int) : ℚ) + 1 / 2) / (samplesperpixel : ℚ) := by
        rw [Int.cast_zero]; positivity
      positivity

theorem RAYcomputeSumX2_sum_zero_of_half_zero (samplesperpixel : Int) (width : ℚ)
    (hhalf : (RAYcomputeSumX2 samplesperpixel width).2 = 0) :
    (RAYcomputeSumX2 samplesperpixel width).1 = 0 := by
  by_cases hodd : samplesperpixel % 2 ≠ 0
  · rw [RAYcomputeSumX2_odd_half _ _ hodd] at hhalf
    rw [RAYcomputeSumX2_odd_sum _ _ hodd, hhalf]
    simp
  · have heven : samplesperpixel % 2 = 0 := by omega
    rw [RAYcomputeSumX2_even_half _ _ heven] at hhalf
    rw [RAYcomputeSumX2_even_sum _ _ heven, hhalf]
    simp

theorem floor_nine_halves : (⌊floatHalfProduct 3 3⌋ : Int) = 4 := by
  rw [floatHalfProduct_of_half 3 9 3 (by decide) (by decide) (by norm_num), Int.floor_eq_iff]
  norm_num

/-- The binary32 number nearest to `3.3333333`. -/
theorem roundToFloat_width_odd_example :
    roundToFloat (33333333 / 10000000) = 13981013 / 4194304 := by
  have h := roundToFloat_of_binade (33333333 / 10000000) 1 13981013 (by decide)
    (by norm_num) (by norm_num)
    (by
      have hf : ⌊(33333333 / 10000000 : ℚ) / (2 : ℚ) ^ ((1 : Int) - 23)⌋ = 13981013 := by
        rw [Int.floor_eq_iff]; norm_num
      unfold roundHalfEven
      rw [hf, if_pos (by norm_num)])
  rw [h]
  norm_num

/-- C6 (as stated, refuted): for `samplesperpixel = 3` and the `float` width
nearest to `3.3333333`, the exact product `3 * 0.5 * width` is just below `5`
and its floor is `4`; the binary32 product is `5`, and `RAYcomputeSumX2`
stores the half-width `5`. -/
theorem RAYcomputeSumX2_odd_half_rounds_up :
    roundToFloat (33333333 / 10000000) = 13981013 / 4194304
    ∧ (RAYcomputeSumX2 3 (13981013 / 4194304)).2 = 5
    ∧ (⌊((3 : Int) : ℚ) * (1 / 2) * (13981013 / 4194304)⌋ : Int) = 4
    ∧ (RAYcomputeSumX2 3 (13981013 / 4194304)).2
        ≠ ⌊((3 : Int) : ℚ) * (1 / 2) * (13981013 / 4194304)⌋ := by
  have hprod : floatHalfProduct 3 (13981013 / 4194304) = 5 := by
    rw [floatHalfProduct_eq 3 _ (by decide)]
    have h := roundToFloat_of_binade (((3 : Int) : ℚ) * (1 / 2) * (13981013 / 4194304)) 2
      10485760 (by decide) (by norm_num) (by norm_num)
      (roundHalfEven_up _ 10485759 (by rw [Int.floor_eq_iff]; norm_num) (by norm_num))
    rw [h]
    norm_num
  have h5 : (RAYcomputeSumX2 3 (13981013 / 4194304)).2 = 5 := by
    rw [RAYcomputeSumX2_odd_half 3 _ (by decide), hprod]
    exact Int.floor_intCast 5
  have h4 : (⌊((3 : Int) : ℚ) * (1 / 2) * (13981013 / 4194304)⌋ : Int) = 4 := by
    rw [Int.floor_eq_iff]; norm_num
  refine ⟨roundToFloat_width_odd_example, h5, h4, ?_⟩
  rw [h5, h4]
  decide

/-- C6 (amended): for odd `samplesperpixel ≥ 1` and `width ≥ 0`,
`RAYcomputeSumX2` stores as `halfsamplewidth` the floor of the binary32 value
of `float(samplesperpixel) * 0.5f * width`, which is
`⌊samplesperpixel * 0.5 * width⌋` whenever `samplesperpixel < 2 ^ 24` and that
product is a binary32 number, and returns the sum of
`(i / samplesperpixel)²` over the integers `i` of
`[-halfsamplewidth, halfsamplewidth]` in exact arithmetic; for
`samplesperpixel = 3` and `width = 3` the half-width is `4` and the sum is
`20 / 3`. -/
theorem RAYcomputeSumX2_odd_spec (samplesperpixel : Int) (width : ℚ)
    (hodd : samplesperpixel % 2 = 1) (hspp : 1 ≤ samplesperpixel) (hwidth : 0 ≤ width) :
    (RAYcomputeSumX2 samplesperpixel width).2 = ⌊floatHalfProduct samplesperpixel width⌋
    ∧ (samplesperpixel < 2 ^ 24 →
        roundToFloat ((samplesperpixel : ℚ) * (1 / 2) * width)
          = (samplesperpixel : ℚ) * (1 / 2) * width →
        (RAYcomputeSumX2 samplesperpixel width).2 = ⌊(samplesperpixel : ℚ) * (1 / 2) * width⌋)
    ∧ (RAYcomputeSumX2 samplesperpixel width).1
        = ∑ i in Finset.Icc (-(RAYcomputeSumX2 samplesperpixel width).2)
            (RAYcomputeSumX2 samplesperpixel width).2,
            ((i : ℚ) / (samplesperpixel : ℚ)) ^ 2
    ∧ (RAYcomputeSumX2 3 3).2 = 4
    ∧ (RAYcomputeSumX2 3 3).1 = ∑ i in Finset.Icc (-4 : Int) 4, ((i : ℚ) / 3) ^ 2
    ∧ (RAYcomputeSumX2 3 3).1 = 20 / 3 := by
  have _ := hwidth
  have hodd0 : samplesperpixel % 2 ≠ 0 := by omega
  have h3 : (RAYcomputeSumX2 3 3).2 = 4 := by
    rw [RAYcomputeSumX2_odd_half 3 3 (by decide)]
    exact floor_nine_halves
  have hI : (Finset.Icc (-4 : Int) 4) = {-4, -3, -2, -1, 0, 1, 2, 3, 4} := by decide
  have hs3 : (RAYcomputeSumX2 3 3).1 = ∑ i in Finset.Icc (-4 : Int) 4, ((i : ℚ) / 3) ^ 2 := by
    rw [RAYcomputeSumX2_odd_sum 3 3 (by decide)]
    simp only [Int.cast_ofNat]
    rw [floor_nine_halves]
  refine ⟨RAYcomputeSumX2_odd_half _ _ hodd0, ?_, ?_, h3, hs3, ?_⟩
  · intro hlt hexact
    have habs : |samplesperpixel| < 2 ^ 24 := by
      rw [abs_of_pos (by omega)]; exact hlt
    rw [RAYcomputeSumX2_odd_half _ _ hodd0, floatHalfProduct_eq _ _ habs, hexact]
  · rw [RAYcomputeSumX2_odd_half _ _ hodd0]
    exact RAYcomputeSumX2_odd_sum _ _ hodd0
  · rw [hs3, hI]
    simp
    norm_num

theorem RAYcomputeSumX2_odd_spec_witness :
    (3 : Int) % 2 = 1 ∧ (1 : Int) ≤ 3 ∧ (0 : ℚ) ≤ 3
    ∧ (RAYcomputeSumX2 3 3).2 = 4 ∧ (RAYcomputeSumX2 3 3).1 = 20 / 3 :=
  ⟨by decide, by decide, by norm_num,
    (RAYcomputeSumX2_odd_spec 3 3 (by decide) (by decide) (by norm_num)).2.2.2.1,
    (RAYcomputeSumX2_odd_spec 3 3 (by decide) (by decide) (by norm_num)).2.2.2.2.2⟩

/-- The binary32 number nearest to `1.3`. -/
theorem roundToFloat_width_even_example :
    roundToFloat (13 / 10) = 5452595 / 4194304 := by
  have h := roundToFloat_of_binade (13 / 10) 0 10905190 (by decide)
    (by norm_num) (by norm_num)
    (by
      have hf : ⌊(13 / 10 : ℚ) / (2 : ℚ) ^ ((0 : Int) - 23)⌋ = 10905190 := by
        rw [Int.floor_eq_iff]; norm_num
      unfold roundHalfEven
      rw [hf, if_pos (by norm_num)])
  rw [h]
  norm_num

/-- C7 (as stated, refuted): for `samplesperpixel = 10` and the `float` width
nearest to `1.3`, the exact value `10 * 0.5 * width + 0.5` is just below `7`
and its floor is `6`; the binary32 product is `6.5`, a tie rounded to even,
the sum with `0.5` is `7`, and `RAYcomputeSumX2` stores the half-width `7`. -/
theorem RAYcomputeSumX2_even_half_rounds_up :
    roundToFloat (13 / 10) = 5452595 / 4194304
    ∧ (RAYcomputeSumX2 10 (5452595 / 4194304)).2 = 7
    ∧ (⌊((10 : Int) : ℚ) * (1 / 2) * (5452595 / 4194304) + 1 / 2⌋ : Int) = 6
    ∧ (RAYcomputeSumX2 10 (5452595 / 4194304)).2
        ≠ ⌊((10 : Int) : ℚ) * (1 / 2) * (5452595 / 4194304) + 1 / 2⌋ := by
  have hprod : floatHalfProduct 10 (5452595 / 4194304) = 13 / 2 := by
    rw [floatHalfProduct_eq 10 _ (by decide)]
    have h := roundToFloat_of_binade (((10 : Int) : ℚ) * (1 / 2) * (5452595 / 4194304)) 2
      13631488 (by decide) (by norm_num) (by norm_num)
      (roundHalfEven_tie_odd _ 13631487 (by rw [Int.floor_eq_iff]; norm_num) (by norm_num)
        (by decide))
    rw [h]
    norm_num
  have hsum : fadd (floatHalfProduct 10 (5452595 / 4194304)) (1 / 2) = 7 := by
    rw [hprod, fadd_of_half _ _ 14 (by decide) (by norm_num)]
    norm_num
  have h7 : (RAYcomputeSumX2 10 (5452595 / 4194304)).2 = 7 := by
    rw [RAYcomputeSumX2_even_half 10 _ (by decide), hsum]
    exact Int.floor_intCast 7
  have h6 : (⌊((10 : Int) : ℚ) * (1 / 2) * (5452595 / 4194304) + 1 / 2⌋ : Int) = 6 := by
    rw [Int.floor_eq_iff]; norm_num
  refine ⟨roundToFloat_width_even_example, h7, h6, ?_⟩
  rw [h7, h6]
  decide

/-- C7 (amended): for even `samplesperpixel ≥ 2` and `width ≥ 0`,
`RAYcomputeSumX2` stores as `halfsamplewidth` the floor of the binary32 value
of `float(samplesperpixel) * 0.5f * width + 0.5f`, which is
`⌊samplesperpixel * 0.5 * width + 0.5⌋` whenever `samplesperpixel < 2 ^ 24`
and both that product and that sum are binary32 numbers, and returns the sum
of `((i + 0.5) / samplesperpixel)²` over the integers `i` of
`[-halfsamplewidth, halfsamplewidth - 1]` in exact arithmetic. -/
theorem RAYcomputeSumX2_even_spec (samplesperpixel : Int) (width : ℚ)
    (heven : samplesperpixel % 2 = 0) (hspp : 2 ≤ samplesperpixel) (hwidth : 0 ≤ width) :
    (RAYcomputeSumX2 samplesperpixel width).2
        = ⌊fadd (floatHalfProduct samplesperpixel width) (1 / 2)⌋
    ∧ (samplesperpixel < 2 ^ 24 →
        roundToFloat ((samplesperpixel : ℚ) * (1 / 2) * width)
          = (samplesperpixel : ℚ) * (1 / 2) * width →
        roundToFloat ((samplesperpixel : ℚ) * (1 / 2) * width + 1 / 2)
          = (samplesperpixel : ℚ) * (1 / 2) * width + 1 / 2 →
        (RAYcomputeSumX2 samplesperpixel width).2
          = ⌊(samplesperpixel : ℚ) * (1 / 2) * width + 1 / 2⌋)
    ∧ (RAYcomputeSumX2 samplesperpixel width).1
        = ∑ i in Finset.Icc (-(RAYcomputeSumX2 samplesperpixel width).2)
            ((RAYcomputeSumX2 samplesperpixel width).2 - 1),
            (((i : ℚ) + 1 / 2) / (samplesperpixel : ℚ)) ^ 2 := by
  have _ := hwidth
  refine ⟨RAYcomputeSumX2_even_half _ _ heven, ?_, ?_⟩
  · intro hlt hexact hexact2
    have habs : |samplesperpixel| < 2 ^ 24 := by
      rw [abs_of_pos (by omega)]; exact hlt
    rw [RAYcomputeSumX2_even_half _ _ heven, floatHalfProduct_eq _ _ habs, hexact]
    unfold fadd
    rw [hexact2]
  · rw [RAYcomputeSumX2_even_half _ _ heven, RAYcomputeSumX2_even_sum _ _ heven]
    refine Finset.sum_congr ?_ (fun _ _ => rfl)
    ext j
    simp only [Finset.mem_Ico, Finset.mem_Icc]
    omega

theorem floor_seven_halves :
    (⌊fadd (floatHalfProduct 4 (3 / 2)) (1 / 2)⌋ : Int) = 3 := by
  rw [floatHalfProduct_of_half 4 6 (3 / 2) (by decide) (by decide) (by norm_num),
    fadd_of_half _ _ 7 (by decide) (by norm_num), Int.floor_eq_iff]
  norm_num

theorem RAYcomputeSumX2_even_spec_witness :
    (4 : Int) % 2 = 0 ∧ (2 : Int) ≤ 4 ∧ (0 : ℚ) ≤ 3 / 2
    ∧ (RAYcomputeSumX2 4 (3 / 2)).2 = 3
    ∧ (RAYcomputeSumX2 4 (3 / 2)).1
        = ∑ i in Finset.Icc (-3 : Int) 2, (((i : ℚ) + 1 / 2) / 4) ^ 2 := by
  have h := RAYcomputeSumX2_even_spec 4 (3 / 2) (by decide) (by decide) (by norm_num)
  have h2 : (RAYcomputeSumX2 4 (3 / 2)).2 = 3 := h.1.trans floor_seven_halves
  refine ⟨by decide, by decide, by norm_num, h2, ?_⟩
  have h1 := h.2.2
  rw [h2] at h1
  simpa using h1

/-- C8: for `samplesperpixel ≥ 1` and `width ≥ 0`, `RAYcomputeSumX2` stores a
half-width `≥ 0` and returns a sum `≥ 0`. -/
theorem RAYcomputeSumX2_nonneg_spec (samplesperpixel : Int) (width : ℚ)
    (hspp : 1 ≤ samplesperpixel) (hwidth : 0 ≤ width) :
    0 ≤ (RAYcomputeSumX2 samplesperpixel width).2
    ∧ 0 ≤ (RAYcomputeSumX2 samplesperpixel width).1 :=
  ⟨RAYcomputeSumX2_half_nonneg _ _ hspp hwidth, RAYcomputeSumX2_sum_nonneg _ _⟩

theorem RAYcomputeSumX2_nonneg_spec_witness :
    (1 : Int) ≤ 2 ∧ (0 : ℚ) ≤ 1
    ∧ 0 ≤ (RAYcomputeSumX2 2 1).2 ∧ 0 ≤ (RAYcomputeSumX2 2 1).1 :=
  ⟨by decide, by norm_num, RAYcomputeSumX2_nonneg_spec 2 1 (by decide) (by norm_num)⟩

/-- C9: for `samplesperpixel ≥ 1` and `width ≥ 0`, the sum returned by
`RAYcomputeSumX2` is `0` exactly when the stored half-width is `0` (an empty
window, or the centre sample alone), and it is strictly positive whenever the
half-width is at least `1`. -/
theorem RAYcomputeSumX2_zero_iff_spec (samplesperpixel : Int) (width : ℚ)
    (hspp : 1 ≤ samplesperpixel) (hwidth : 0 ≤ width) :
    ((RAYcomputeSumX2 samplesperpixel width).1 = 0
        ↔ (RAYcomputeSumX2 samplesperpixel width).2 = 0)
    ∧ (1 ≤ (RAYcomputeSumX2 samplesperpixel width).2
        → 0 < (RAYcomputeSumX2 samplesperpixel width).1) := by
  have hnn := RAYcomputeSumX2_half_nonneg samplesperpixel width hspp hwidth
  refine ⟨⟨fun hz => ?_, RAYcomputeSumX2_sum_zero_of_half_zero _ _⟩,
    RAYcomputeSumX2_sum_pos _ _ hspp⟩
  by_contra hne
  have hpos := RAYcomputeSumX2_sum_pos samplesperpixel width hspp (by omega)
  rw [hz] at hpos
  exact lt_irrefl _ hpos

theorem floor_one_half : (⌊floatHalfProduct 1 1⌋ : Int) = 0 := by
  rw [floatHalfProduct_of_half 1 1 1 (by decide) (by decide) (by norm_num), Int.floor_eq_iff]
  norm_num

theorem RAYcomputeSumX2_zero_iff_spec_witness :
    (1 : Int) ≤ 1 ∧ (0 : ℚ) ≤ 1
    ∧ (RAYcomputeSumX2 1 1).2 = 0 ∧ (RAYcomputeSumX2 1 1).1 = 0 := by
  have h2 : (RAYcomputeSumX2 1 1).2 = 0 :=
    (RAYcomputeSumX2_odd_half 1 1 (by decide)).trans floor_one_half
  exact ⟨by decide, by norm_num, h2,
    (RAYcomputeSumX2_zero_iff_spec 1 1 (by decide) (by norm_num)).1.mpr h2⟩

/-! ## Configuration: `setArgs` -/

theorem SYSclamp_mem (v : ℚ) : 1 ≤ SYSclamp v 1 1024 ∧ SYSclamp v 1 1024 ≤ 1024 := by
  unfold SYSclamp
  split_ifs with h1 h2
  · norm_num
  · norm_num
  · exact ⟨not_lt.mp h1, not_lt.mp h2⟩

theorem setArgsZ_frame (args : UT_Args) (f : RAY_VarianceFilter) :
    (setArgsZ args f).myOpIDWidth = f.myOpIDWidth
    ∧ (setArgsZ args f).myUseOpID = f.myUseOpID
    ∧ (setArgsZ args f).myColourGradientWidth = f.myColourGradientWidth
    ∧ (setArgsZ args f).myUseColourGradient = f.myUseColourGradient := by
  unfold setArgsZ
  split
  · exact ⟨rfl, rfl, rfl, rfl⟩
  · dsimp only
    split
    · split_ifs <;> exact ⟨rfl, rfl, rfl, rfl⟩
    · exact ⟨rfl, rfl, rfl, rfl⟩

theorem setArgsOpID_frame (args : UT_Args) (f : RAY_VarianceFilter) :
    (setArgsOpID args f).myZGradientWidth = f.myZGradientWidth
    ∧ (setArgsOpID args f).myUseZGradient = f.myUseZGradient
    ∧ (setArgsOpID args f).myColourGradientWidth = f.myColourGradientWidth
    ∧ (setArgsOpID args f).myUseColourGradient = f.myUseColourGradient := by
  unfold setArgsOpID
  split <;> exact ⟨rfl, rfl, rfl, rfl⟩

theorem setArgsColour_frame (args : UT_Args) (f : RAY_VarianceFilter) :
    (setArgsColour args f).myZGradientWidth = f.myZGradientWidth
    ∧ (setArgsColour args f).myUseZGradient = f.myUseZGradient
    ∧ (setArgsColour args f).myOpIDWidth = f.myOpIDWidth
    ∧ (setArgsColour args f).myUseOpID = f.myUseOpID := by
  unfold setArgsColour
  split
  · exact ⟨rfl, rfl, rfl, rfl⟩
  · dsimp only
    split
    · split_ifs <;> exact ⟨rfl, rfl, rfl, rfl⟩
    · exact ⟨rfl, rfl, rfl, rfl⟩

theorem setArgsOpID_width (args : UT_Args) (f : RAY_VarianceFilter) (v : ℚ)
    (ho : args.o = some v) :
    (setArgsOpID args f).myOpIDWidth = SYSclamp v 1 1024 := by
  simp [setArgsOpID, ho]

theorem setArgsColour_width (args : UT_Args) (f : RAY_VarianceFilter) (v c : ℚ)
    (hw : args.w = some v) (hc : args.c = some c) (hc0 : 0 ≤ c) :
    (setArgsColour args f).myColourGradientWidth = SYSclamp v 1 1024 := by
  simp only [setArgsColour, hw, hc, ge_iff_le, hc0, decide_True]
  split_ifs <;> rfl

theorem setArgsColour_width_ignored (args : UT_Args) (f : RAY_VarianceFilter)
    (hc : args.c = none ∨ ∃ c, args.c = some c ∧ c < 0) :
    (setArgsColour args f).myColourGradientWidth = f.myColourGradientWidth := by
  rcases hc with hc | ⟨c, hc, hneg⟩
  · simp [setArgsColour, hc]
  · have hd : decide (c ≥ 0) = false := decide_eq_false (not_le.mpr hneg)
    simp only [setArgsColour, hc, hd]

/-- C10 (the code at a failing input): on a default-constructed filter,
configuring only `-w 2000` leaves the colour width at its default `3` instead
of storing the clamped value `1024`, because `setArgs` reads option `w` only
inside the block of option `c`; configuring only `-o 2000` does store `1024`
as the Op ID width. -/
theorem setArgs_w_alone_is_ignored :
    ((RAY_VarianceFilter.ctor zeroStorage).setArgs { w := some 2000 }).myColourGradientWidth = 3
    ∧ SYSclamp 2000 1 1024 = 1024
    ∧ ((RAY_VarianceFilter.ctor zeroStorage).setArgs { w := some 2000 }).myColourGradientWidth
        ≠ SYSclamp 2000 1 1024
    ∧ ((RAY_VarianceFilter.ctor zeroStorage).setArgs { o := some 2000 }).myOpIDWidth
        = SYSclamp 2000 1 1024 := by
  have h : ((RAY_VarianceFilter.ctor zeroStorage).setArgs { w := some 2000 }).myColourGradientWidth
      = 3 := by
    simp [RAY_VarianceFilter.setArgs, setArgsZ, setArgsOpID, setArgsColour,
      RAY_VarianceFilter.ctor]
  have hc : SYSclamp 2000 1 1024 = 1024 := by norm_num [SYSclamp]
  refine ⟨h, hc, ?_, ?_⟩
  · rw [h, hc]
    norm_num
  · rw [RAY_VarianceFilter.setArgs, (setArgsZ_frame _ _).1]
    exact setArgsOpID_width _ _ 2000 rfl

/-! ## Extrema accumulated by a scan -/

theorem IsExtremumFrom.refl {ι : Type} {le : ℚ → ℚ → Prop} (hrefl : ∀ a, le a a)
    (init : ℚ) (val : ι → ℚ) :
    IsExtremumFrom le init (fun _ => False) val init :=
  ⟨hrefl init, fun _ h => h.elim, Or.inl rfl⟩

theorem IsExtremumFrom.trans {ι : Type} {le : ℚ → ℚ → Prop}
    (htrans : ∀ a b c, le a b → le b c → le a c)
    {a b c : ℚ} {S T : ι → Prop} {val : ι → ℚ}
    (h1 : IsExtremumFrom le a S val b) (h2 : IsExtremumFrom le b T val c) :
    IsExtremumFrom le a (fun p => S p ∨ T p) val c := by
  obtain ⟨hab, hS, hb⟩ := h1
  obtain ⟨hbc, hT, hc⟩ := h2
  refine ⟨htrans _ _ _ hab hbc, ?_, ?_⟩
  · rintro p (hp | hp)
    · exact htrans _ _ _ (hS p hp) hbc
    · exact hT p hp
  · rcases hc with rfl | ⟨p, hp, rfl⟩
    · rcases hb with rfl | ⟨p, hp, rfl⟩
      · exact Or.inl rfl
      · exact Or.inr ⟨p, Or.inl hp, rfl⟩
    · exact Or.inr ⟨p, Or.inr hp, rfl⟩

theorem IsExtremumFrom.congr {ι : Type} {le : ℚ → ℚ → Prop} {a r : ℚ}
    {S T : ι → Prop} {val : ι → ℚ} (hST : ∀ p, S p ↔ T p)
    (h : IsExtremumFrom le a S val r) : IsExtremumFrom le a T val r := by
  obtain ⟨har, hS, hr⟩ := h
  refine ⟨har, fun p hp => hS p ((hST p).mpr hp), ?_⟩
  rcases hr with rfl | ⟨p, hp, rfl⟩
  · exact Or.inl rfl
  · exact Or.inr ⟨p, (hST p).mp hp, rfl⟩

/-- A loop whose every iteration `i` folds the positions `T i` into the
running extremum folds, in all, the positions of all the iterations. -/
theorem forRange_isExtremumFrom {σ ι : Type} {le : ℚ → ℚ → Prop}
    (hrefl : ∀ a, le a a) (htrans : ∀ a b c, le a b → le b c → le a c)
    (proj : σ → ℚ) (val : ι → ℚ) (body : Int → σ → σ) (T : Int → ι → Prop)
    (hbody : ∀ i st, IsExtremumFrom le (proj st) (T i) val (proj (body i st))) :
    ∀ (n : Nat) (lo : Int) (st : σ),
      IsExtremumFrom le (proj st) (fun p => ∃ i, lo ≤ i ∧ i < lo + n ∧ T i p) val
        (proj (forRange body n lo st)) := by
  intro n
  induction n with
  | zero =>
    intro lo st
    refine IsExtremumFrom.congr ?_ (IsExtremumFrom.refl hrefl (proj st) val)
    intro p
    constructor
    · exact fun h => h.elim
    · rintro ⟨i, h1, h2, _⟩
      simp only [Nat.cast_zero, add_zero] at h2
      omega
  | succ n ih =>
    intro lo st
    refine IsExtremumFrom.congr ?_
      (IsExtremumFrom.trans htrans (hbody lo st) (ih (lo + 1) (body lo st)))
    intro p
    constructor
    · rintro (h | ⟨i, h1, h2, h3⟩)
      · exact ⟨lo, le_refl _, by push_cast; omega, h⟩
      · exact ⟨i, by omega, by push_cast; omega, h3⟩
    · rintro ⟨i, h1, h2, h3⟩
      by_cases hi : i = lo
      · subst hi
        exact Or.inl h3
      · refine Or.inr ⟨i, by omega, ?_, h3⟩
        push_cast at h2
        omega

/-! ## The channel loops -/

theorem forRange_chanBody (fmin fmax : Int → ℚ → ℚ) :
    ∀ (n : Nat) (lo : Int) (buf : Scratch) (k : Int),
      (forRange (chanBody fmin fmax) n lo buf).minRGB k
          = (if lo ≤ k ∧ k < lo + n then fmin k (buf.minRGB k) else buf.minRGB k)
      ∧ (forRange (chanBody fmin fmax) n lo buf).maxRGB k
          = (if lo ≤ k ∧ k < lo + n then fmax k (buf.maxRGB k) else buf.maxRGB k) := by
  intro n
  induction n with
  | zero =>
    intro lo buf k
    have hn : ¬ (lo ≤ k ∧ k < lo + ((0 : Nat) : Int)) := by
      push_cast; omega
    simp only [forRange, hn, if_false, and_self]
  | succ n ih =>
    intro lo buf k
    rw [forRange]
    obtain ⟨h1, h2⟩ := ih (lo + 1) (chanBody fmin fmax lo buf) k
    rw [h1, h2]
    by_cases hk : k = lo
    · subst hk
      have hn : ¬ (k + 1 ≤ k ∧ k < k + 1 + (n : Int)) := by omega
      have hy : k ≤ k ∧ k < k + ((n + 1 : Nat) : Int) := by push_cast; omega
      simp only [hn, hy, if_false, if_true, chanBody, Function.update_same, and_self]
    · have hupd1 : (chanBody fmin fmax lo buf).minRGB k = buf.minRGB k := by
        simp only [chanBody, Function.update_noteq hk]
      have hupd2 : (chanBody fmin fmax lo buf).maxRGB k = buf.maxRGB k := by
        simp only [chanBody, Function.update_noteq hk]
      have hiff : (lo + 1 ≤ k ∧ k < lo + 1 + (n : Int))
          ↔ (lo ≤ k ∧ k < lo + ((n + 1 : Nat) : Int)) := by
        push_cast; omega
      rw [hupd1, hupd2]
      simp only [hiff, and_self]

theorem initScratch_apply (vectorsize : Int) (buf : Scratch) (k : Int)
    (hk0 : 0 ≤ k) (hk : k < vectorsize) :
    (initScratch vectorsize buf).minRGB k = 1000
    ∧ (initScratch vectorsize buf).maxRGB k = -1000 := by
  have h := forRange_chanBody (fun _ _ => 1000) (fun _ _ => -1000)
    (vectorsize - 0).toNat 0 buf k
  have hin : (0 : Int) ≤ k ∧ k < 0 + (((vectorsize - 0).toNat : Nat) : Int) := by omega
  simp only [hin, if_true] at h
  exact h

theorem accumulateSample_apply (vectorsize : Int) (colourdata : Int → ℚ)
    (sourcei : Int) (buf : Scratch) (k : Int) (hk0 : 0 ≤ k) (hk : k < vectorsize) :
    (accumulateSample vectorsize colourdata sourcei buf).minRGB k
        = min (buf.minRGB k) (colourdata (vectorsize * sourcei + k))
    ∧ (accumulateSample vectorsize colourdata sourcei buf).maxRGB k
        = max (buf.maxRGB k) (colourdata (vectorsize * sourcei + k)) := by
  have h := forRange_chanBody
    (fun i m => SYSmin m (colourdata (vectorsize * sourcei + i)))
    (fun i m => SYSmax m (colourdata (vectorsize * sourcei + i)))
    (vectorsize - 0).toNat 0 buf k
  have hin : (0 : Int) ≤ k ∧ k < 0 + (((vectorsize - 0).toNat : Nat) : Int) := by omega
  simp only [hin, if_true] at h
  exact h

/-! ## The scan of one pixel -/

theorem scanRow_isExtremumFrom {le : ℚ → ℚ → Prop}
    (hrefl : ∀ a, le a a) (htrans : ∀ a b c, le a b → le b c → le a c)
    (proj : Scratch → ℚ) (vectorsize : Int) (colourdata : Int → ℚ) (sourcewidth : Int)
    (k : Int) (op : ℚ → ℚ → ℚ)
    (hop : ∀ a v, le a (op a v) ∧ le v (op a v) ∧ (op a v = a ∨ op a v = v))
    (hacc : ∀ sourcei buf, proj (accumulateSample vectorsize colourdata sourcei buf)
      = op (proj buf) (colourdata (vectorsize * sourcei + k)))
    (b : SampleBounds) (sourcey : Int) (buf : Scratch) :
    IsExtremumFrom le (proj buf)
      (fun p => p.2 = sourcey ∧ b.sourcefirstrx ≤ p.1 ∧ p.1 ≤ b.sourcelastrx
        ∧ b.inColourWindow p)
      (sampleValue vectorsize colourdata sourcewidth k)
      (proj (scanRow vectorsize colourdata sourcewidth b sourcey buf)) := by
  have hcell : ∀ (sourcex : Int) (st : Scratch),
      IsExtremumFrom le (proj st)
        (fun p => p = (sourcex, sourcey) ∧ b.inColourWindow p)
        (sampleValue vectorsize colourdata sourcewidth k)
        (proj (if sourcex ≥ b.sourcefirstcx ∧ sourcex ≤ b.sourcelastcx
            ∧ sourcey ≥ b.sourcefirstcy ∧ sourcey ≤ b.sourcelastcy then
          accumulateSample vectorsize colourdata (sourcex + sourcewidth * sourcey) st
        else st)) := by
    intro sourcex st
    by_cases hc : sourcex ≥ b.sourcefirstcx ∧ sourcex ≤ b.sourcelastcx
        ∧ sourcey ≥ b.sourcefirstcy ∧ sourcey ≤ b.sourcelastcy
    · rw [if_pos hc, hacc]
      obtain ⟨h1, h2, h3⟩ := hop (proj st) (colourdata (vectorsize * (sourcex + sourcewidth * sourcey) + k))
      refine ⟨h1, ?_, ?_⟩
      · rintro p ⟨rfl, _⟩
        exact h2
      · rcases h3 with h3 | h3
        · exact Or.inl h3
        · exact Or.inr ⟨(sourcex, sourcey), ⟨rfl, hc⟩, h3⟩
    · rw [if_neg hc]
      refine IsExtremumFrom.congr ?_ (IsExtremumFrom.refl hrefl _ _)
      intro p
      constructor
      · exact fun h => h.elim
      · rintro ⟨rfl, hp⟩
        exact hc hp
  have h := forRange_isExtremumFrom hrefl htrans proj
    (sampleValue vectorsize colourdata sourcewidth k) _ _ hcell
    (b.sourcelastrx + 1 - b.sourcefirstrx).toNat b.sourcefirstrx buf
  refine IsExtremumFrom.congr ?_ h
  intro p
  constructor
  · rintro ⟨i, h1, h2, rfl, h3⟩
    exact ⟨rfl, h1, by dsimp only; omega, h3⟩
  · rintro ⟨h1, h2, h3, h4⟩
    exact ⟨p.1, h2, by omega, by rw [← h1], h4⟩

theorem scanPixel_isExtremumFrom {le : ℚ → ℚ → Prop}
    (hrefl : ∀ a, le a a) (htrans : ∀ a b c, le a b → le b c → le a c)
    (proj : Scratch → ℚ) (vectorsize : Int) (colourdata : Int → ℚ) (sourcewidth : Int)
    (k : Int) (op : ℚ → ℚ → ℚ)
    (hop : ∀ a v, le a (op a v) ∧ le v (op a v) ∧ (op a v = a ∨ op a v = v))
    (hacc : ∀ sourcei buf, proj (accumulateSample vectorsize colourdata sourcei buf)
      = op (proj buf) (colourdata (vectorsize * sourcei + k)))
    (b : SampleBounds) :
    IsExtremumFrom le
      (proj (initScratch vectorsize { minRGB := fun _ => 0, maxRGB := fun _ => 0 }))
      (fun p => b.inScanned p ∧ b.inColourWindow p)
      (sampleValue vectorsize colourdata sourcewidth k)
      (proj (scanPixel vectorsize colourdata sourcewidth b)) := by
  have h := forRange_isExtremumFrom hrefl htrans proj
    (sampleValue vectorsize colourdata sourcewidth k)
    (fun sourcey buf => scanRow vectorsize colourdata sourcewidth b sourcey buf)
    (fun sourcey p => p.2 = sourcey ∧ b.sourcefirstrx ≤ p.1 ∧ p.1 ≤ b.sourcelastrx
        ∧ b.inColourWindow p)
    (fun sourcey st => scanRow_isExtremumFrom hrefl htrans proj vectorsize colourdata
      sourcewidth k op hop hacc b sourcey st)
    (b.sourcelastry + 1 - b.sourcefirstry).toNat b.sourcefirstry
    (initScratch vectorsize { minRGB := fun _ => 0, maxRGB := fun _ => 0 })
  refine IsExtremumFrom.congr ?_ h
  intro p
  constructor
  · rintro ⟨i, h1, h2, rfl, h3, h4, h5⟩
    exact ⟨⟨h3, h4, h1, by omega⟩, h5⟩
  · rintro ⟨⟨h1, h2, h3, h4⟩, h5⟩
    exact ⟨p.2, h3, by omega, rfl, h1, h2, h5⟩

/-- For channel `k` of the vector, the scan of one pixel leaves in `maxRGB`
the maximum of `-1000` and the window samples, and in `minRGB` the minimum of
`1000` and the window samples; the samples that count are those of the
scanned rectangle that pass the window test. -/
theorem scanPixel_extrema (vectorsize : Int) (colourdata : Int → ℚ) (sourcewidth : Int)
    (b : SampleBounds) (k : Int) (hk0 : 0 ≤ k) (hk : k < vectorsize) :
    IsMaxFrom (-1000) (fun p => b.inScanned p ∧ b.inColourWindow p)
        (sampleValue vectorsize colourdata sourcewidth k)
        ((scanPixel vectorsize colourdata sourcewidth b).maxRGB k)
    ∧ IsMinFrom 1000 (fun p => b.inScanned p ∧ b.inColourWindow p)
        (sampleValue vectorsize colourdata sourcewidth k)
        ((scanPixel vectorsize colourdata sourcewidth b).minRGB k) := by
  constructor
  · have h := @scanPixel_isExtremumFrom (fun a b => a ≤ b) (fun a => le_refl a)
      (fun a b c => le_trans) (fun buf => buf.maxRGB k) vectorsize colourdata sourcewidth k max
      (fun a v => ⟨le_max_left a v, le_max_right a v, max_choice a v⟩)
      (fun sourcei buf => (accumulateSample_apply vectorsize colourdata sourcei buf k hk0 hk).2) b
    rw [(initScratch_apply vectorsize _ k hk0 hk).2] at h
    exact h
  · have h := @scanPixel_isExtremumFrom (fun a b => b ≤ a) (fun a => le_refl a)
      (fun a b c hab hbc => le_trans hbc hab) (fun buf => buf.minRGB k) vectorsize colourdata
      sourcewidth k min
      (fun a v => ⟨min_le_left a v, min_le_right a v, min_choice a v⟩)
      (fun sourcei buf => (accumulateSample_apply vectorsize colourdata sourcei buf k hk0 hk).1) b
    rw [(initScratch_apply vectorsize _ k hk0 hk).1] at h
    exact h

theorem shiftRight_one (x : Int) : x >>> (1 : Nat) = x / 2 := by
  rw [Int.shiftRight_eq_div_pow]; norm_num

/-- The scanned rectangle contains the colour window: it is the bounding box
of the pixel's block and the colour window. -/
theorem sampleBounds_inScanned (f : RAY_VarianceFilter)
    (destxoffsetinsource destyoffsetinsource destx desty : Int) (p : Int × Int)
    (hp : (f.sampleBounds destxoffsetinsource destyoffsetinsource destx desty).inColourWindow p) :
    (f.sampleBounds destxoffsetinsource destyoffsetinsource destx desty).inScanned p := by
  obtain ⟨h1, h2, h3, h4⟩ := hp
  simp only [RAY_VarianceFilter.sampleBounds, SYSmin, SYSmax, ge_iff_le] at h1 h2 h3 h4
  simp only [SampleBounds.inScanned, RAY_VarianceFilter.sampleBounds, SYSmin, SYSmax]
  exact ⟨le_trans (min_le_right _ _) h1, le_trans h2 (le_max_right _ _),
    le_trans (min_le_right _ _) h3, le_trans h4 (le_max_right _ _)⟩

/-- The extrema of one pixel of `filter`, over its colour window. -/
theorem scanPixel_sampleBounds_extrema (f : RAY_VarianceFilter) (vectorsize : Int)
    (colourdata : Int → ℚ) (sourcewidth : Int)
    (destxoffsetinsource destyoffsetinsource destx desty : Int)
    (k : Int) (hk0 : 0 ≤ k) (hk : k < vectorsize) :
    IsMaxFrom (-1000)
        (f.sampleBounds destxoffsetinsource destyoffsetinsource destx desty).inColourWindow
        (sampleValue vectorsize colourdata sourcewidth k)
        ((scanPixel vectorsize colourdata sourcewidth
          (f.sampleBounds destxoffsetinsource destyoffsetinsource destx desty)).maxRGB k)
    ∧ IsMinFrom 1000
        (f.sampleBounds destxoffsetinsource destyoffsetinsource destx desty).inColourWindow
        (sampleValue vectorsize colourdata sourcewidth k)
        ((scanPixel vectorsize colourdata sourcewidth
          (f.sampleBounds destxoffsetinsource destyoffsetinsource destx desty)).minRGB k) := by
  have h := scanPixel_extrema vectorsize colourdata sourcewidth
    (f.sampleBounds destxoffsetinsource destyoffsetinsource destx desty) k hk0 hk
  have hiff : ∀ p : Int × Int,
      ((f.sampleBounds destxoffsetinsource destyoffsetinsource destx desty).inScanned p
        ∧ (f.sampleBounds destxoffsetinsource destyoffsetinsource destx desty).inColourWindow p)
      ↔ (f.sampleBounds destxoffsetinsource destyoffsetinsource destx desty).inColourWindow p :=
    fun p => ⟨fun hp => hp.2, fun hp => ⟨sampleBounds_inScanned f _ _ _ _ p hp, hp⟩⟩
  exact ⟨IsExtremumFrom.congr hiff h.1, IsExtremumFrom.congr hiff h.2⟩

/-! ## The layout of the destination -/

theorem forRange_append (blk : Int → List ℚ) :
    ∀ (n : Nat) (lo : Int) (d : List ℚ),
      forRange (fun i d => d ++ blk i) n lo d = d ++ blocks blk n lo := by
  intro n
  induction n with
  | zero => intro lo d; simp [forRange, blocks]
  | succ n ih => intro lo d; rw [forRange, ih, blocks, List.append_assoc]

theorem blocks_length (blk : Int → List ℚ) (m : Nat) (hm : ∀ i, (blk i).length = m) :
    ∀ (n : Nat) (lo : Int), (blocks blk n lo).length = n * m := by
  intro n
  induction n with
  | zero => intro lo; simp [blocks]
  | succ n ih => intro lo; rw [blocks, List.length_append, hm, ih]; ring

theorem blocks_getElem? (blk : Int → List ℚ) (m : Nat) (hm : ∀ i, (blk i).length = m) :
    ∀ (n : Nat) (lo : Int) (j i : Nat), j < n → i < m →
      (blocks blk n lo)[j * m + i]? = (blk (lo + j))[i]? := by
  intro n
  induction n with
  | zero => intro lo j i hj; omega
  | succ n ih =>
    intro lo j i hj hi
    rw [blocks]
    cases j with
    | zero =>
      rw [List.getElem?_append_left (by rw [hm]; omega)]
      simp
    | succ j =>
      have hge : (blk lo).length ≤ (j + 1) * m + i := by
        rw [hm]; nlinarith
      rw [List.getElem?_append_right hge, hm]
      have hidx : (j + 1) * m + i - m = j * m + i := by
        have : (j + 1) * m = j * m + m := by ring
        omega
      rw [hidx, ih (lo + 1) j i (by omega) hi]
      congr 2
      push_cast
      ring

theorem filterPixel_eq (f : RAY_VarianceFilter) (vectorsize : Int)
    (colourdata : Int → ℚ) (sourcewidth : Int)
    (destxoffsetinsource destyoffsetinsource : Int) (desty destx : Int)
    (destination : List ℚ) :
    f.filterPixel vectorsize colourdata sourcewidth destxoffsetinsource destyoffsetinsource
        desty destx destination
      = destination ++ pixelBlock f vectorsize colourdata sourcewidth
          destxoffsetinsource destyoffsetinsource desty destx := by
  simp only [RAY_VarianceFilter.filterPixel, forLt, pixelBlock, sub_zero]
  exact forRange_append _ _ _ _

theorem pixelBlock_length (f : RAY_VarianceFilter) (vectorsize : Int)
    (colourdata : Int → ℚ) (sourcewidth : Int)
    (destxoffsetinsource destyoffsetinsource : Int) (desty destx : Int) :
    (pixelBlock f vectorsize colourdata sourcewidth
      destxoffsetinsource destyoffsetinsource desty destx).length = vectorsize.toNat := by
  rw [pixelBlock, blocks_length _ 1 (fun _ => List.length_singleton _), Nat.mul_one]

theorem filter_eq_blocks (f : RAY_VarianceFilter) (vectorsize : Int)
    (colourdata : Int → ℚ) (sourcewidth sourceheight destwidth destheight : Int)
    (destxoffsetinsource destyoffsetinsource : Int) :
    f.filter vectorsize colourdata sourcewidth sourceheight destwidth destheight
        destxoffsetinsource destyoffsetinsource
      = blocks (fun desty => blocks (fun destx =>
          pixelBlock f vectorsize colourdata sourcewidth
            destxoffsetinsource destyoffsetinsource desty destx) destwidth.toNat 0)
          destheight.toNat 0 := by
  simp only [RAY_VarianceFilter.filter, forLt, sub_zero, filterPixel_eq]
  have hrow : ∀ (desty : Int) (d : List ℚ),
      forRange (fun destx destination => destination ++ pixelBlock f vectorsize colourdata
          sourcewidth destxoffsetinsource destyoffsetinsource desty destx) destwidth.toNat 0 d
        = d ++ blocks (fun destx => pixelBlock f vectorsize colourdata sourcewidth
          destxoffsetinsource destyoffsetinsource desty destx) destwidth.toNat 0 :=
    fun desty d => forRange_append _ _ _ _
  simp only [hrow]
  rw [forRange_append, List.nil_append]

/-- Channel `i` of destination pixel `(destx, desty)` is stored at index
`(desty * destwidth + destx) * vectorsize + i`, and holds
`maxRGB[i] - minRGB[i]` of that pixel's scan. -/
theorem filter_getElem? (f : RAY_VarianceFilter) (vectorsize : Int)
    (colourdata : Int → ℚ) (sourcewidth sourceheight destwidth destheight : Int)
    (destxoffsetinsource destyoffsetinsource : Int) (destx desty i : Int)
    (hx0 : 0 ≤ destx) (hx : destx < destwidth) (hy0 : 0 ≤ desty) (hy : desty < destheight)
    (hi0 : 0 ≤ i) (hi : i < vectorsize) :
    (f.filter vectorsize colourdata sourcewidth sourceheight destwidth destheight
        destxoffsetinsource destyoffsetinsource)[((desty * destwidth + destx) * vectorsize
          + i).toNat]?
      = some ((scanPixel vectorsize colourdata sourcewidth
            (f.sampleBounds destxoffsetinsource destyoffsetinsource destx desty)).maxRGB i
          - (scanPixel vectorsize colourdata sourcewidth
            (f.sampleBounds destxoffsetinsource destyoffsetinsource destx desty)).minRGB i) := by
  obtain ⟨x, rfl⟩ := Int.eq_ofNat_of_zero_le hx0
  obtain ⟨y, rfl⟩ := Int.eq_ofNat_of_zero_le hy0
  obtain ⟨c, rfl⟩ := Int.eq_ofNat_of_zero_le hi0
  obtain ⟨w, rfl⟩ := Int.eq_ofNat_of_zero_le (by omega : (0 : Int) ≤ destwidth)
  obtain ⟨h, rfl⟩ := Int.eq_ofNat_of_zero_le (by omega : (0 : Int) ≤ destheight)
  obtain ⟨v, rfl⟩ := Int.eq_ofNat_of_zero_le (by omega : (0 : Int) ≤ vectorsize)
  have hxw : x < w := by exact_mod_cast hx
  have hyh : y < h := by exact_mod_cast hy
  have hcv : c < v := by exact_mod_cast hi
  have hidx : ((((y : Int) * (w : Int) + (x : Int)) * (v : Int) + (c : Int))).toNat
      = y * (w * v) + (x * v + c) := by
    have : (((y : Int) * (w : Int) + (x : Int)) * (v : Int) + (c : Int))
        = ((y * (w * v) + (x * v + c) : Nat) : Int) := by
      push_cast; ring
    rw [this, Int.toNat_ofNat]
  have hrowlen : ∀ desty : Int, (blocks (fun destx =>
      pixelBlock f (v : Int) colourdata sourcewidth destxoffsetinsource destyoffsetinsource
        desty destx) w 0).length = w * v := by
    intro desty
    rw [blocks_length _ v (fun destx => by rw [pixelBlock_length, Int.toNat_ofNat])]
  have hin : x * v + c < w * v := by
    have : (x + 1) * v ≤ w * v := Nat.mul_le_mul_right v hxw
    nlinarith
  rw [filter_eq_blocks, hidx]
  simp only [Int.toNat_ofNat]
  rw [blocks_getElem? _ (w * v) hrowlen h 0 y (x * v + c) hyh hin,
    blocks_getElem? _ v (fun destx => by rw [pixelBlock_length, Int.toNat_ofNat]) w 0 x c hxw hcv]
  simp only [zero_add, pixelBlock, Int.toNat_ofNat]
  have h1 := blocks_getElem? (fun i =>
    [(scanPixel (v : Int) colourdata sourcewidth
        (f.sampleBounds destxoffsetinsource destyoffsetinsource x y)).maxRGB i
      - (scanPixel (v : Int) colourdata sourcewidth
        (f.sampleBounds destxoffsetinsource destyoffsetinsource x y)).minRGB i])
    1 (fun _ => rfl) v 0 c 0 hcv (by omega)
  simp only [Nat.mul_one, Nat.add_zero, zero_add] at h1
  rw [h1]
  simp

theorem filter_length (f : RAY_VarianceFilter) (vectorsize : Int)
    (colourdata : Int → ℚ) (sourcewidth sourceheight destwidth destheight : Int)
    (destxoffsetinsource destyoffsetinsource : Int) :
    (f.filter vectorsize colourdata sourcewidth sourceheight destwidth destheight
        destxoffsetinsource destyoffsetinsource).length
      = destheight.toNat * (destwidth.toNat * vectorsize.toNat) := by
  rw [filter_eq_blocks]
  exact blocks_length _ _
    (fun desty => blocks_length _ _ (fun destx => pixelBlock_length _ _ _ _ _ _ _ _) _ _) _ _

/-- A tile of one pixel with one channel: the single value written. -/
theorem filter_one_pixel (f : RAY_VarianceFilter)
    (colourdata : Int → ℚ) (sourcewidth sourceheight : Int)
    (destxoffsetinsource destyoffsetinsource : Int) :
    f.filter 1 colourdata sourcewidth sourceheight 1 1 destxoffsetinsource destyoffsetinsource
      = [(scanPixel 1 colourdata sourcewidth
            (f.sampleBounds destxoffsetinsource destyoffsetinsource 0 0)).maxRGB 0
          - (scanPixel 1 colourdata sourcewidth
            (f.sampleBounds destxoffsetinsource destyoffsetinsource 0 0)).minRGB 0] := by
  have h1 : (1 : Int).toNat = 0 + 1 := rfl
  rw [filter_eq_blocks]
  simp only [h1, blocks, pixelBlock, List.append_nil]

/-! ## Reading off the extrema -/

theorem IsMaxFrom.max_eq_of_attained {ι : Type} {init r M : ℚ} {S : ι → Prop} {val : ι → ℚ}
    (h : IsMaxFrom init S val r) (hatt : ∃ p, S p ∧ val p = M)
    (hle : ∀ p, S p → val p ≤ M) (hinit : init ≤ M) : r = M := by
  obtain ⟨h1, h2, h3⟩ := h
  obtain ⟨q, hq, hqM⟩ := hatt
  have hMr : M ≤ r := hqM ▸ h2 q hq
  rcases h3 with rfl | ⟨p, hp, rfl⟩
  · exact le_antisymm hinit hMr
  · exact le_antisymm (hle p hp) hMr

theorem IsMinFrom.min_eq_of_attained {ι : Type} {init r m : ℚ} {S : ι → Prop} {val : ι → ℚ}
    (h : IsMinFrom init S val r) (hatt : ∃ p, S p ∧ val p = m)
    (hle : ∀ p, S p → m ≤ val p) (hinit : m ≤ init) : r = m := by
  obtain ⟨h1, h2, h3⟩ := h
  obtain ⟨q, hq, hqm⟩ := hatt
  have hrm : r ≤ m := hqm ▸ h2 q hq
  rcases h3 with rfl | ⟨p, hp, rfl⟩
  · exact le_antisymm hrm hinit
  · exact le_antisymm hrm (hle p hp)

theorem IsMinFrom.min_eq_init {ι : Type} {init r : ℚ} {S : ι → Prop} {val : ι → ℚ}
    (h : IsMinFrom init S val r) (hle : ∀ p, S p → init ≤ val p) : r = init := by
  obtain ⟨h1, h2, h3⟩ := h
  rcases h3 with rfl | ⟨p, hp, rfl⟩
  · rfl
  · exact le_antisymm h1 (hle p hp)

/-- The colour window in terms of the members of the filter. -/
theorem inColourWindow_iff (f : RAY_VarianceFilter)
    (destxoffsetinsource destyoffsetinsource destx desty : Int) (p : Int × Int) :
    (f.sampleBounds destxoffsetinsource destyoffsetinsource destx desty).inColourWindow p
      ↔ (destxoffsetinsource + destx * f.mySamplesPerPixelX + f.mySamplesPerPixelX / 2
            - f.myColourSamplesHalfX ≤ p.1
          ∧ p.1 ≤ destxoffsetinsource + destx * f.mySamplesPerPixelX
            + (f.mySamplesPerPixelX - 1) / 2 + f.myColourSamplesHalfX
          ∧ destyoffsetinsource + desty * f.mySamplesPerPixelY + f.mySamplesPerPixelY / 2
            - f.myColourSamplesHalfY ≤ p.2
          ∧ p.2 ≤ destyoffsetinsource + desty * f.mySamplesPerPixelY
            + (f.mySamplesPerPixelY - 1) / 2 + f.myColourSamplesHalfY) := by
  simp only [SampleBounds.inColourWindow, RAY_VarianceFilter.sampleBounds, shiftRight_one,
    ge_iff_le]

theorem floor_half_mul_three : (⌊floatHalfProduct 1 3⌋ : Int) = 1 := by
  rw [floatHalfProduct_of_half 1 3 3 (by decide) (by decide) (by norm_num), Int.floor_eq_iff]
  norm_num

/-- The colour half-widths `prepFilter` stores for one sample per pixel. -/
theorem prepFilter_one_colourHalf (f : RAY_VarianceFilter) :
    (f.prepFilter 1 1).mySamplesPerPixelX = 1
    ∧ (f.prepFilter 1 1).mySamplesPerPixelY = 1
    ∧ (f.prepFilter 1 1).myColourSamplesHalfX
        = ⌊floatHalfProduct 1 f.myColourGradientWidth⌋
    ∧ (f.prepFilter 1 1).myColourSamplesHalfY
        = ⌊floatHalfProduct 1 f.myColourGradientWidth⌋ :=
  ⟨rfl, rfl, RAYcomputeSumX2_odd_half 1 _ (by decide), RAYcomputeSumX2_odd_half 1 _ (by decide)⟩

/-- With one sample per pixel and colour width `3`, the colour window of the
pixel at sample `(x, y)` is the `3 × 3` square around it. -/
theorem window_width_three (f : RAY_VarianceFilter) (hw : f.myColourGradientWidth = 3)
    (destxoffsetinsource destyoffsetinsource : Int) (p : Int × Int) :
    ((f.prepFilter 1 1).sampleBounds destxoffsetinsource destyoffsetinsource 0 0).inColourWindow p
      ↔ (destxoffsetinsource - 1 ≤ p.1 ∧ p.1 ≤ destxoffsetinsource + 1
          ∧ destyoffsetinsource - 1 ≤ p.2 ∧ p.2 ≤ destyoffsetinsource + 1) := by
  obtain ⟨h1, h2, h3, h4⟩ := prepFilter_one_colourHalf f
  rw [inColourWindow_iff, h1, h2, h3, h4, hw, floor_half_mul_three]
  omega

/-- With one sample per pixel and colour width `1`, the colour window of the
pixel at sample `(x, y)` is that sample alone. -/
theorem window_width_one (f : RAY_VarianceFilter) (hw : f.myColourGradientWidth = 1)
    (destxoffsetinsource destyoffsetinsource : Int) (p : Int × Int) :
    ((f.prepFilter 1 1).sampleBounds destxoffsetinsource destyoffsetinsource 0 0).inColourWindow p
      ↔ p = (destxoffsetinsource, destyoffsetinsource) := by
  obtain ⟨h1, h2, h3, h4⟩ := prepFilter_one_colourHalf f
  rw [inColourWindow_iff, h1, h2, h3, h4, hw, floor_one_half, Prod.ext_iff]
  dsimp only
  omega

/-! ## Independence from the z-depth and Op ID members -/

theorem scanPixel_sampleBounds_congr (f g : RAY_VarianceFilter)
    (hx : f.mySamplesPerPixelX = g.mySamplesPerPixelX)
    (hy : f.mySamplesPerPixelY = g.mySamplesPerPixelY)
    (hcx : f.myColourSamplesHalfX = g.myColourSamplesHalfX)
    (hcy : f.myColourSamplesHalfY = g.myColourSamplesHalfY)
    (vectorsize : Int) (colourdata : Int → ℚ) (sourcewidth : Int)
    (destxoffsetinsource destyoffsetinsource destx desty : Int) :
    scanPixel vectorsize colourdata sourcewidth
        (f.sampleBounds destxoffsetinsource destyoffsetinsource destx desty)
      = scanPixel vectorsize colourdata sourcewidth
        (g.sampleBounds destxoffsetinsource destyoffsetinsource destx desty) := by
  simp only [scanPixel, scanRow, RAY_VarianceFilter.sampleBounds, hx, hy, hcx, hcy]

theorem inScanned_congr (f g : RAY_VarianceFilter)
    (hx : f.mySamplesPerPixelX = g.mySamplesPerPixelX)
    (hy : f.mySamplesPerPixelY = g.mySamplesPerPixelY)
    (hcx : f.myColourSamplesHalfX = g.myColourSamplesHalfX)
    (hcy : f.myColourSamplesHalfY = g.myColourSamplesHalfY)
    (destxoffsetinsource destyoffsetinsource destx desty : Int) (p : Int × Int) :
    (f.sampleBounds destxoffsetinsource destyoffsetinsource destx desty).inScanned p
      ↔ (g.sampleBounds destxoffsetinsource destyoffsetinsource destx desty).inScanned p := by
  simp only [SampleBounds.inScanned, RAY_VarianceFilter.sampleBounds, hx, hy, hcx, hcy]

/-- Two filter objects that agree on the samples per pixel and on the colour
half-widths produce the same destination. -/
theorem filter_congr (f g : RAY_VarianceFilter)
    (hx : f.mySamplesPerPixelX = g.mySamplesPerPixelX)
    (hy : f.mySamplesPerPixelY = g.mySamplesPerPixelY)
    (hcx : f.myColourSamplesHalfX = g.myColourSamplesHalfX)
    (hcy : f.myColourSamplesHalfY = g.myColourSamplesHalfY)
    (vectorsize : Int) (colourdata : Int → ℚ)
    (sourcewidth sourceheight destwidth destheight : Int)
    (destxoffsetinsource destyoffsetinsource : Int) :
    f.filter vectorsize colourdata sourcewidth sourceheight destwidth destheight
        destxoffsetinsource destyoffsetinsource
      = g.filter vectorsize colourdata sourcewidth sourceheight destwidth destheight
        destxoffsetinsource destyoffsetinsource := by
  rw [filter_eq_blocks, filter_eq_blocks]
  simp only [pixelBlock, scanPixel_sampleBounds_congr f g hx hy hcx hcy]

/-! ## The code at concrete inputs -/

theorem setArgs_myColourGradientWidth (f : RAY_VarianceFilter) (args : UT_Args) (v c : ℚ)
    (hw : args.w = some v) (hc : args.c = some c) (hc0 : 0 ≤ c) :
    (f.setArgs args).myColourGradientWidth = SYSclamp v 1 1024 := by
  rw [RAY_VarianceFilter.setArgs, (setArgsZ_frame _ _).2.2.1, (setArgsOpID_frame _ _).2.2.1]
  exact setArgsColour_width _ _ v c hw hc hc0

theorem setArgs_myColourGradientWidth_ignored (f : RAY_VarianceFilter) (args : UT_Args)
    (hc : args.c = none ∨ ∃ c, args.c = some c ∧ c < 0) :
    (f.setArgs args).myColourGradientWidth = f.myColourGradientWidth := by
  rw [RAY_VarianceFilter.setArgs, (setArgsZ_frame _ _).2.2.1, (setArgsOpID_frame _ _).2.2.1,
    setArgsColour_width_ignored _ _ hc]

theorem SYSclamp_one : SYSclamp 1 1 1024 = 1 := by norm_num [SYSclamp]

/-- The output of a one-pixel, one-channel tile from the extrema of its
window. -/
theorem filter_one_pixel_eq (f : RAY_VarianceFilter)
    (colourdata : Int → ℚ) (sourcewidth sourceheight : Int)
    (destxoffsetinsource destyoffsetinsource : Int) (M m : ℚ)
    (hmax : ∀ r, IsMaxFrom (-1000)
      (f.sampleBounds destxoffsetinsource destyoffsetinsource 0 0).inColourWindow
      (sampleValue 1 colourdata sourcewidth 0) r → r = M)
    (hmin : ∀ r, IsMinFrom 1000
      (f.sampleBounds destxoffsetinsource destyoffsetinsource 0 0).inColourWindow
      (sampleValue 1 colourdata sourcewidth 0) r → r = m) :
    f.filter 1 colourdata sourcewidth sourceheight 1 1 destxoffsetinsource destyoffsetinsource
      = [M - m] := by
  obtain ⟨h1, h2⟩ := scanPixel_sampleBounds_extrema f 1 colourdata sourcewidth
    destxoffsetinsource destyoffsetinsource 0 0 0 (le_refl 0) (by norm_num)
  rw [filter_one_pixel, hmax _ h1, hmin _ h2]

/-- C1 (the code at a failing input): with the default configuration and one
sample per pixel, a `3 × 3` source whose centre sample holds `2500` and whose
other samples hold `1500` has window maximum `2500` and window minimum `1500`,
so maximum minus minimum is `1000`; `filter` writes `1500`, because `minRGB`
never leaves its start value `1000`. -/
theorem filter_bright_source_writes_1500 :
    defaultFilter.filter 1 brightSource 3 3 1 1 1 1 = [1500]
    ∧ (∀ p, (defaultFilter.sampleBounds 1 1 0 0).inColourWindow p →
        1500 ≤ sampleValue 1 brightSource 3 0 p ∧ sampleValue 1 brightSource 3 0 p ≤ 2500)
    ∧ (defaultFilter.sampleBounds 1 1 0 0).inColourWindow (1, 1)
    ∧ sampleValue 1 brightSource 3 0 (1, 1) = 2500
    ∧ (defaultFilter.sampleBounds 1 1 0 0).inColourWindow (0, 0)
    ∧ sampleValue 1 brightSource 3 0 (0, 0) = 1500 := by
  have hw : ∀ p, (defaultFilter.sampleBounds 1 1 0 0).inColourWindow p
      ↔ ((1 : Int) - 1 ≤ p.1 ∧ p.1 ≤ 1 + 1 ∧ (1 : Int) - 1 ≤ p.2 ∧ p.2 ≤ 1 + 1) :=
    fun p => window_width_three _ rfl 1 1 p
  have hval : ∀ p : Int × Int, 1500 ≤ sampleValue 1 brightSource 3 0 p
      ∧ sampleValue 1 brightSource 3 0 p ≤ 2500 := by
    intro p
    simp only [sampleValue, brightSource]
    split_ifs <;> norm_num
  have hc : (defaultFilter.sampleBounds 1 1 0 0).inColourWindow (1, 1) :=
    (hw _).mpr (by norm_num)
  have hc0 : (defaultFilter.sampleBounds 1 1 0 0).inColourWindow (0, 0) :=
    (hw _).mpr (by norm_num)
  have hv : sampleValue 1 brightSource 3 0 (1, 1) = 2500 := by
    simp [sampleValue, brightSource]
  have hv0 : sampleValue 1 brightSource 3 0 (0, 0) = 1500 := by
    simp [sampleValue, brightSource]
  refine ⟨?_, fun p _ => hval p, hc, hv, hc0, hv0⟩
  have h := filter_one_pixel_eq defaultFilter brightSource 3 3 1 1 2500 1000
    (fun r hr => hr.max_eq_of_attained ⟨(1, 1), hc, hv⟩ (fun p _ => (hval p).2) (by norm_num))
    (fun r hr => hr.min_eq_init (fun p _ => le_trans (by norm_num) (hval p).1))
  rw [h]
  norm_num

/-- C2 (the code at a failing input): with the default configuration and one
sample per pixel, a source that holds `2000` in every sample is uniform, yet
`filter` writes `1000` and not `0`, because `minRGB` never leaves its start
value `1000`. -/
theorem filter_uniform_2000_writes_1000 :
    defaultFilter.filter 1 (fun _ => 2000) 3 3 1 1 1 1 = [1000] := by
  have hc : (defaultFilter.sampleBounds 1 1 0 0).inColourWindow (1, 1) :=
    (window_width_three _ rfl 1 1 _).mpr (by norm_num)
  have h := filter_one_pixel_eq defaultFilter (fun _ => 2000) 3 3 1 1 2000 1000
    (fun r hr => hr.max_eq_of_attained ⟨(1, 1), hc, rfl⟩ (fun p _ => le_refl _) (by norm_num))
    (fun r hr => hr.min_eq_init (fun p _ => by simp only [sampleValue]; norm_num))
  rw [h]
  norm_num

/-- C3 (as stated, refuted): with `-c 0.1 -w 1` and one sample per pixel the
window of a pixel is its one sample; on a `3 × 3` source whose centre sample
is the outlier, holding `5`, while every other sample holds `0`, `filter`
writes `5 - 5 = 0` for the centre pixel, not `5`. -/
theorem filter_lone_outlier_writes_zero :
    narrowFilter.filter 1 (outlierSource 4 5) 3 3 1 1 1 1 = [0]
    ∧ narrowFilter.filter 1 (outlierSource 4 5) 3 3 1 1 1 1 ≠ [5]
    ∧ (∀ p, (narrowFilter.sampleBounds 1 1 0 0).inColourWindow p ↔ p = (1, 1))
    ∧ sampleValue 1 (outlierSource 4 5) 3 0 (1, 1) = 5
    ∧ (∀ i : Int, i ≠ 4 → outlierSource 4 5 i = 0) := by
  have hwidth : ((RAY_VarianceFilter.ctor zeroStorage).setArgs
      { c := some (1 / 10), w := some 1 }).myColourGradientWidth = 1 := by
    rw [setArgs_myColourGradientWidth _ _ 1 (1 / 10) rfl rfl (by norm_num), SYSclamp_one]
  have hw : ∀ p, (narrowFilter.sampleBounds 1 1 0 0).inColourWindow p ↔ p = (1, 1) :=
    fun p => window_width_one _ hwidth 1 1 p
  have hv : sampleValue 1 (outlierSource 4 5) 3 0 (1, 1) = 5 := by
    simp [sampleValue, outlierSource]
  have hout : narrowFilter.filter 1 (outlierSource 4 5) 3 3 1 1 1 1 = [0] := by
    have h := filter_one_pixel_eq narrowFilter (outlierSource 4 5) 3 3 1 1 5 5
      (fun r hr => hr.max_eq_of_attained ⟨(1, 1), (hw _).mpr rfl, hv⟩
        (fun p hp => by rw [(hw p).mp hp, hv]) (by norm_num))
      (fun r hr => hr.min_eq_of_attained ⟨(1, 1), (hw _).mpr rfl, hv⟩
        (fun p hp => by rw [(hw p).mp hp, hv]) (by norm_num))
    rw [h]
    norm_num
  refine ⟨hout, ?_, hw, hv, ?_⟩
  · rw [hout]
    norm_num
  · intro i hi
    simp only [outlierSource, if_neg hi]

/-- C3 (amended): when the colour window of a destination pixel contains a
sample holding `v ≥ 0` in channel `k`, at least one other sample, and `0` in
channel `k` of every other sample, `filter` writes `v` for that pixel and
channel. -/
theorem filter_single_outlier (f : RAY_VarianceFilter) (vectorsize : Int)
    (colourdata : Int → ℚ) (sourcewidth sourceheight destwidth destheight : Int)
    (destxoffsetinsource destyoffsetinsource : Int) (destx desty k : Int)
    (hx0 : 0 ≤ destx) (hx : destx < destwidth) (hy0 : 0 ≤ desty) (hy : desty < destheight)
    (hk0 : 0 ≤ k) (hk : k < vectorsize)
    (v : ℚ) (hv : 0 ≤ v) (p q : Int × Int)
    (hp : (f.sampleBounds destxoffsetinsource destyoffsetinsource destx desty).inColourWindow p)
    (hpv : sampleValue vectorsize colourdata sourcewidth k p = v)
    (hq : (f.sampleBounds destxoffsetinsource destyoffsetinsource destx desty).inColourWindow q)
    (hqp : q ≠ p)
    (hothers : ∀ r,
      (f.sampleBounds destxoffsetinsource destyoffsetinsource destx desty).inColourWindow r →
      r ≠ p → sampleValue vectorsize colourdata sourcewidth k r = 0) :
    (f.filter vectorsize colourdata sourcewidth sourceheight destwidth destheight
        destxoffsetinsource destyoffsetinsource)[((desty * destwidth + destx) * vectorsize
          + k).toNat]? = some v := by
  obtain ⟨hmax, hmin⟩ := scanPixel_sampleBounds_extrema f vectorsize colourdata sourcewidth
    destxoffsetinsource destyoffsetinsource destx desty k hk0 hk
  have hM := hmax.max_eq_of_attained ⟨p, hp, hpv⟩
    (fun r hr => by
      by_cases hrp : r = p
      · rw [hrp, hpv]
      · rw [hothers r hr hrp]; exact hv)
    (le_trans (by norm_num) hv)
  have hm := hmin.min_eq_of_attained ⟨q, hq, hothers q hq hqp⟩
    (fun r hr => by
      by_cases hrp : r = p
      · rw [hrp, hpv]; exact hv
      · rw [hothers r hr hrp])
    (by norm_num)
  rw [filter_getElem? f vectorsize colourdata sourcewidth sourceheight destwidth destheight
    destxoffsetinsource destyoffsetinsource destx desty k hx0 hx hy0 hy hk0 hk, hM, hm, sub_zero]

theorem filter_single_outlier_witness :
    (defaultFilter.sampleBounds 1 1 0 0).inColourWindow (1, 1)
    ∧ sampleValue 1 (outlierSource 4 5) 3 0 (1, 1) = 5
    ∧ (defaultFilter.sampleBounds 1 1 0 0).inColourWindow (0, 0)
    ∧ (defaultFilter.filter 1 (outlierSource 4 5) 3 3 1 1 1 1)[0]? = some 5 := by
  have hw : ∀ p, (defaultFilter.sampleBounds 1 1 0 0).inColourWindow p
      ↔ ((1 : Int) - 1 ≤ p.1 ∧ p.1 ≤ 1 + 1 ∧ (1 : Int) - 1 ≤ p.2 ∧ p.2 ≤ 1 + 1) :=
    fun p => window_width_three _ rfl 1 1 p
  have hc : (defaultFilter.sampleBounds 1 1 0 0).inColourWindow (1, 1) :=
    (hw _).mpr (by norm_num)
  have hc0 : (defaultFilter.sampleBounds 1 1 0 0).inColourWindow (0, 0) :=
    (hw _).mpr (by norm_num)
  have hv : sampleValue 1 (outlierSource 4 5) 3 0 (1, 1) = 5 := by
    simp [sampleValue, outlierSource]
  have hothers : ∀ r : Int × Int, (defaultFilter.sampleBounds 1 1 0 0).inColourWindow r →
      r ≠ (1, 1) → sampleValue 1 (outlierSource 4 5) 3 0 r = 0 := by
    intro r hr hne
    have hr2 := (hw r).mp hr
    have hidx : ¬ (1 * (r.1 + 3 * r.2) + 0 = 4) := by
      intro h4
      apply hne
      apply Prod.ext
      · show r.1 = 1
        omega
      · show r.2 = 1
        omega
    simp only [sampleValue, outlierSource, if_neg hidx]
  exact ⟨hc, hv, hc0,
    filter_single_outlier defaultFilter 1 (outlierSource 4 5) 3 3 1 1 1 1 0 0 0
      (le_refl 0) (by norm_num) (le_refl 0) (by norm_num) (le_refl 0) (by norm_num)
      5 (by norm_num) (1, 1) (0, 0) hc hv hc0 (by decide) hothers⟩

/-- C4 (the code at a failing input): with `-c -1 -z -1 -o -1` every
detector is disabled and `getFilterWidth` reports `1`, half a pixel on each
side of the centre, so for one sample per pixel the source region of a
one-pixel tile is that one sample, at index `0`. The colour width is still
`3`, the window of the pixel contains the sample at column `-1`, one pixel
from the centre, and `filter` reads it: two sources that agree on sample `0`
and differ at index `-1` give different outputs. -/
theorem filter_reads_beyond_reported_width :
    allDisabledFilter.getFilterWidth = (1, 1)
    ∧ allDisabledFilter.getFilterWidth.1 * (allDisabledFilter.mySamplesPerPixelX : ℚ) / 2 < 1
    ∧ (allDisabledFilter.sampleBounds 0 0 0 0).inColourWindow (-1, 0)
    ∧ outlierSource (-1) 9 0 = (fun _ => (0 : ℚ)) 0
    ∧ allDisabledFilter.filter 1 (fun _ => 0) 1 1 1 1 0 0 = [0]
    ∧ allDisabledFilter.filter 1 (outlierSource (-1) 9) 1 1 1 1 0 0 = [9] := by
  have hwidth : ((RAY_VarianceFilter.ctor zeroStorage).setArgs
      { c := some (-1), z := some (-1), o := some (-1) }).myColourGradientWidth = 3 := by
    rw [setArgs_myColourGradientWidth_ignored _ _ (Or.inr ⟨-1, rfl, by norm_num⟩)]
    rfl
  have hw : ∀ p, (allDisabledFilter.sampleBounds 0 0 0 0).inColourWindow p
      ↔ ((0 : Int) - 1 ≤ p.1 ∧ p.1 ≤ 0 + 1 ∧ (0 : Int) - 1 ≤ p.2 ∧ p.2 ≤ 0 + 1) :=
    fun p => window_width_three _ hwidth 0 0 p
  have hc : (allDisabledFilter.sampleBounds 0 0 0 0).inColourWindow (-1, 0) :=
    (hw _).mpr (by norm_num)
  have hc0 : (allDisabledFilter.sampleBounds 0 0 0 0).inColourWindow (0, 0) :=
    (hw _).mpr (by norm_num)
  have hval : ∀ p : Int × Int, 0 ≤ sampleValue 1 (outlierSource (-1) 9) 1 0 p
      ∧ sampleValue 1 (outlierSource (-1) 9) 1 0 p ≤ 9 := by
    intro p
    simp only [sampleValue, outlierSource]
    split_ifs <;> norm_num
  have hfw : allDisabledFilter.getFilterWidth = (1, 1) := by
    norm_num [allDisabledFilter, RAY_VarianceFilter.getFilterWidth,
      RAY_VarianceFilter.prepFilter, RAY_VarianceFilter.setArgs, setArgsZ, setArgsOpID,
      setArgsColour, RAY_VarianceFilter.ctor, zeroStorage, SYSmax3, SYSclamp]
  have hspp : allDisabledFilter.mySamplesPerPixelX = 1 := rfl
  refine ⟨hfw, ?_, hc, ?_, ?_, ?_⟩
  · rw [hfw, hspp]
    norm_num
  · simp [outlierSource]
  · have h := filter_one_pixel_eq allDisabledFilter (fun _ => 0) 1 1 0 0 0 0
      (fun r hr => hr.max_eq_of_attained ⟨(0, 0), hc0, rfl⟩ (fun p _ => le_refl _) (by norm_num))
      (fun r hr => hr.min_eq_of_attained ⟨(0, 0), hc0, rfl⟩ (fun p _ => le_refl _) (by norm_num))
    rw [h]
    norm_num
  · have h := filter_one_pixel_eq allDisabledFilter (outlierSource (-1) 9) 1 1 0 0 9 0
      (fun r hr => hr.max_eq_of_attained ⟨(-1, 0), hc, by simp [sampleValue, outlierSource]⟩
        (fun p _ => (hval p).2) (by norm_num))
      (fun r hr => hr.min_eq_of_attained ⟨(0, 0), hc0, by simp [sampleValue, outlierSource]⟩
        (fun p _ => (hval p).1) (by norm_num))
    rw [h]
    norm_num

/-- C5 (the code at a failing input): `-c -1` and `-c 1 -w 1` followed by
`-c -1` both disable the colour detector and differ in the colour width
alone, `3` against `1`; after `prepFilter` the two objects give different
outputs on the same source, because `filter` merges the colour window into
the scanned rectangle without consulting `myUseColourGradient`. -/
theorem filter_depends_on_disabled_colour_width :
    colourOffWide.myUseColourGradient = false
    ∧ colourOffNarrow.myUseColourGradient = false
    ∧ colourOffNarrow = { colourOffWide with myColourGradientWidth := 1 }
    ∧ colourOffWide.myColourGradientWidth = 3
    ∧ (colourOffWide.prepFilter 1 1).filter 1 (outlierSource 0 7) 3 3 1 1 1 1 = [7]
    ∧ (colourOffNarrow.prepFilter 1 1).filter 1 (outlierSource 0 7) 3 3 1 1 1 1 = [0] := by
  have hwide : colourOffWide.myColourGradientWidth = 3 := by
    rw [colourOffWide, setArgs_myColourGradientWidth_ignored _ _ (Or.inr ⟨-1, rfl, by norm_num⟩)]
    rfl
  have hnarrow : colourOffNarrow.myColourGradientWidth = 1 := by
    rw [colourOffNarrow, setArgs_myColourGradientWidth_ignored _ _ (Or.inr ⟨-1, rfl, by norm_num⟩),
      setArgs_myColourGradientWidth _ _ 1 1 rfl rfl (by norm_num), SYSclamp_one]
  have hw3 : ∀ p, ((colourOffWide.prepFilter 1 1).sampleBounds 1 1 0 0).inColourWindow p
      ↔ ((1 : Int) - 1 ≤ p.1 ∧ p.1 ≤ 1 + 1 ∧ (1 : Int) - 1 ≤ p.2 ∧ p.2 ≤ 1 + 1) :=
    fun p => window_width_three _ hwide 1 1 p
  have hw1 : ∀ p, ((colourOffNarrow.prepFilter 1 1).sampleBounds 1 1 0 0).inColourWindow p
      ↔ p = (1, 1) :=
    fun p => window_width_one _ hnarrow 1 1 p
  have hval : ∀ p : Int × Int, 0 ≤ sampleValue 1 (outlierSource 0 7) 3 0 p
      ∧ sampleValue 1 (outlierSource 0 7) 3 0 p ≤ 7 := by
    intro p
    simp only [sampleValue, outlierSource]
    split_ifs <;> norm_num
  have hv0 : sampleValue 1 (outlierSource 0 7) 3 0 (0, 0) = 7 := by
    simp [sampleValue, outlierSource]
  have hv1 : sampleValue 1 (outlierSource 0 7) 3 0 (1, 1) = 0 := by
    simp [sampleValue, outlierSource]
  refine ⟨?_, ?_, ?_, hwide, ?_, ?_⟩
  · simp [colourOffWide, RAY_VarianceFilter.setArgs, setArgsZ, setArgsOpID, setArgsColour,
      RAY_VarianceFilter.ctor, zeroStorage]
  · norm_num [colourOffNarrow, RAY_VarianceFilter.setArgs, setArgsZ, setArgsOpID,
      setArgsColour, RAY_VarianceFilter.ctor, zeroStorage, SYSclamp]
  · norm_num [colourOffNarrow, colourOffWide, RAY_VarianceFilter.setArgs, setArgsZ,
      setArgsOpID, setArgsColour, RAY_VarianceFilter.ctor, zeroStorage, SYSclamp]
  · have h := filter_one_pixel_eq (colourOffWide.prepFilter 1 1) (outlierSource 0 7) 3 3 1 1 7 0
      (fun r hr => hr.max_eq_of_attained ⟨(0, 0), (hw3 _).mpr (by norm_num), hv0⟩
        (fun p _ => (hval p).2) (by norm_num))
      (fun r hr => hr.min_eq_of_attained ⟨(1, 1), (hw3 _).mpr (by norm_num), hv1⟩
        (fun p _ => (hval p).1) (by norm_num))
    rw [h]
    norm_num
  · have h := filter_one_pixel_eq (colourOffNarrow.prepFilter 1 1) (outlierSource 0 7) 3 3 1 1 0 0
      (fun r hr => hr.max_eq_of_attained ⟨(1, 1), (hw1 _).mpr rfl, hv1⟩
        (fun p hp => by rw [(hw1 p).mp hp, hv1]) (by norm_num))
      (fun r hr => hr.min_eq_of_attained ⟨(1, 1), (hw1 _).mpr rfl, hv1⟩
        (fun p hp => by rw [(hw1 p).mp hp, hv1]) (by norm_num))
    rw [h]
    norm_num

/-! ## Configuration: enable flags and width range -/

theorem setArgsColour_enabled (args : UT_Args) (f : RAY_VarianceFilter)
    (hf : f.myUseColourGradient = true) :
    (setArgsColour args f).myUseColourGradient = true
      ↔ (args.c = none ∨ ∃ c, args.c = some c ∧ 0 ≤ c
          ∧ (args.w = none ∨ ∃ w, args.w = some w ∧ 0 ≤ w)) := by
  cases hc : args.c with
  | none => simp [setArgsColour, hc, hf]
  | some c =>
    by_cases hc0 : 0 ≤ c
    · cases hw : args.w with
      | none => simp [setArgsColour, hc, hw, hc0]
      | some w =>
        by_cases hw0 : w < 0
        · simp [setArgsColour, hc, hw, hc0, hw0]
        · simp [setArgsColour, hc, hw, hc0, hw0, not_lt.mp hw0]
    · have hd : decide (c ≥ 0) = false := decide_eq_false hc0
      simp [setArgsColour, hc, hd, hc0]

theorem setArgsZ_enabled (args : UT_Args) (f : RAY_VarianceFilter)
    (hf : f.myUseZGradient = true) :
    (setArgsZ args f).myUseZGradient = true
      ↔ (args.z = none ∨ ∃ z, args.z = some z ∧ 0 ≤ z
          ∧ (args.s = none ∨ ∃ s, args.s = some s ∧ 0 ≤ s)) := by
  cases hz : args.z with
  | none => simp [setArgsZ, hz, hf]
  | some z =>
    by_cases hz0 : 0 ≤ z
    · cases hs : args.s with
      | none => simp [setArgsZ, hz, hs, hz0]
      | some s =>
        by_cases hs0 : s < 0
        · simp [setArgsZ, hz, hs, hz0, hs0]
        · simp [setArgsZ, hz, hs, hz0, hs0, not_lt.mp hs0]
    · have hd : decide (z ≥ 0) = false := decide_eq_false hz0
      simp [setArgsZ, hz, hd, hz0]

theorem setArgsOpID_enabled (args : UT_Args) (f : RAY_VarianceFilter)
    (hf : f.myUseOpID = true) :
    (setArgsOpID args f).myUseOpID = true
      ↔ (args.o = none ∨ ∃ o, args.o = some o ∧ 0 ≤ o) := by
  cases ho : args.o with
  | none => simp [setArgsOpID, ho, hf]
  | some o => simp [setArgsOpID, ho]

theorem setArgs_myUseColourGradient (f : RAY_VarianceFilter) (args : UT_Args) :
    (f.setArgs args).myUseColourGradient = (setArgsColour args f).myUseColourGradient := by
  rw [RAY_VarianceFilter.setArgs, (setArgsZ_frame _ _).2.2.2, (setArgsOpID_frame _ _).2.2.2]

theorem setArgs_myUseOpID (f : RAY_VarianceFilter) (args : UT_Args) :
    (f.setArgs args).myUseOpID = (setArgsOpID args (setArgsColour args f)).myUseOpID := by
  rw [RAY_VarianceFilter.setArgs, (setArgsZ_frame _ _).2.1]

/-- C11: after `setArgs` on a default-constructed filter, the colour detector
is enabled exactly when `c` is absent, or `c ≥ 0` and `w` is absent or
`w ≥ 0`; the z-depth detector exactly when `z` is absent, or `z ≥ 0` and `s`
is absent or `s ≥ 0`; the Op ID detector exactly when `o` is absent or
`o ≥ 0`. A negative `c`, `z` or `o` disables its detector. -/
theorem setArgs_enabled_spec (raw : RAY_VarianceFilter) (args : UT_Args) :
    (((RAY_VarianceFilter.ctor raw).setArgs args).myUseColourGradient = true
      ↔ (args.c = none ∨ ∃ c, args.c = some c ∧ 0 ≤ c
          ∧ (args.w = none ∨ ∃ w, args.w = some w ∧ 0 ≤ w)))
    ∧ (((RAY_VarianceFilter.ctor raw).setArgs args).myUseZGradient = true
      ↔ (args.z = none ∨ ∃ z, args.z = some z ∧ 0 ≤ z
          ∧ (args.s = none ∨ ∃ s, args.s = some s ∧ 0 ≤ s)))
    ∧ (((RAY_VarianceFilter.ctor raw).setArgs args).myUseOpID = true
      ↔ (args.o = none ∨ ∃ o, args.o = some o ∧ 0 ≤ o))
    ∧ (∀ c, args.c = some c → c < 0 →
        ((RAY_VarianceFilter.ctor raw).setArgs args).myUseColourGradient = false)
    ∧ (∀ z, args.z = some z → z < 0 →
        ((RAY_VarianceFilter.ctor raw).setArgs args).myUseZGradient = false)
    ∧ (∀ o, args.o = some o → o < 0 →
        ((RAY_VarianceFilter.ctor raw).setArgs args).myUseOpID = false) := by
  have hC : ((RAY_VarianceFilter.ctor raw).setArgs args).myUseColourGradient = true
      ↔ (args.c = none ∨ ∃ c, args.c = some c ∧ 0 ≤ c
          ∧ (args.w = none ∨ ∃ w, args.w = some w ∧ 0 ≤ w)) := by
    rw [setArgs_myUseColourGradient]
    exact setArgsColour_enabled args _ rfl
  have hZ : ((RAY_VarianceFilter.ctor raw).setArgs args).myUseZGradient = true
      ↔ (args.z = none ∨ ∃ z, args.z = some z ∧ 0 ≤ z
          ∧ (args.s = none ∨ ∃ s, args.s = some s ∧ 0 ≤ s)) := by
    rw [RAY_VarianceFilter.setArgs]
    refine setArgsZ_enabled args _ ?_
    rw [(setArgsOpID_frame _ _).2.1, (setArgsColour_frame _ _).2.1]
    rfl
  have hO : ((RAY_VarianceFilter.ctor raw).setArgs args).myUseOpID = true
      ↔ (args.o = none ∨ ∃ o, args.o = some o ∧ 0 ≤ o) := by
    rw [setArgs_myUseOpID]
    refine setArgsOpID_enabled args _ ?_
    rw [(setArgsColour_frame _ _).2.2.2]
    rfl
  refine ⟨hC, hZ, hO, ?_, ?_, ?_⟩
  · intro c hc hneg
    rw [← Bool.not_eq_true, hC]
    rintro (h | ⟨c', h, h0, _⟩)
    · rw [hc] at h; exact Option.noConfusion h
    · rw [hc] at h
      have : c = c' := Option.some.inj h
      subst this
      exact absurd h0 (not_le.mpr hneg)
  · intro z hz hneg
    rw [← Bool.not_eq_true, hZ]
    rintro (h | ⟨z', h, h0, _⟩)
    · rw [hz] at h; exact Option.noConfusion h
    · rw [hz] at h
      have : z = z' := Option.some.inj h
      subst this
      exact absurd h0 (not_le.mpr hneg)
  · intro o ho hneg
    rw [← Bool.not_eq_true, hO]
    rintro (h | ⟨o', h, h0⟩)
    · rw [ho] at h; exact Option.noConfusion h
    · rw [ho] at h
      have : o = o' := Option.some.inj h
      subst this
      exact absurd h0 (not_le.mpr hneg)

theorem setArgs_enabled_spec_witness :
    ((RAY_VarianceFilter.ctor zeroStorage).setArgs
        { c := some (-1), z := some 1, s := some 2 }).myUseColourGradient = false
    ∧ ((RAY_VarianceFilter.ctor zeroStorage).setArgs
        { c := some (-1), z := some 1, s := some 2 }).myUseZGradient = true
    ∧ ((RAY_VarianceFilter.ctor zeroStorage).setArgs
        { c := some (-1), z := some 1, s := some 2 }).myUseOpID = true := by
  have h := setArgs_enabled_spec zeroStorage { c := some (-1), z := some 1, s := some 2 }
  exact ⟨h.2.2.2.1 (-1) rfl (by norm_num),
    h.2.1.mpr (Or.inr ⟨1, rfl, by norm_num, Or.inr ⟨2, rfl, by norm_num⟩⟩),
    h.2.2.1.mpr (Or.inl rfl)⟩

/-- C12: `getFilterWidth` stores the same value in `x` and `y`, the maximum of
the three detector widths, where a disabled detector counts with width `1`. -/
theorem getFilterWidth_spec (f : RAY_VarianceFilter) :
    f.getFilterWidth.1 = f.getFilterWidth.2
    ∧ f.getFilterWidth.1
      = max (if f.myUseColourGradient = true then f.myColourGradientWidth else 1)
          (max (if f.myUseZGradient = true then f.myZGradientWidth else 1)
            (if f.myUseOpID = true then f.myOpIDWidth else 1)) := by
  refine ⟨rfl, ?_⟩
  simp only [RAY_VarianceFilter.getFilterWidth, SYSmax3]
  exact max_assoc _ _ _

theorem setArgsColour_width_cases (args : UT_Args) (f : RAY_VarianceFilter) :
    (setArgsColour args f).myColourGradientWidth = f.myColourGradientWidth
    ∨ ∃ v, (setArgsColour args f).myColourGradientWidth = SYSclamp v 1 1024 := by
  unfold setArgsColour
  split
  · exact Or.inl rfl
  · dsimp only
    split
    · rename_i w _ _
      exact Or.inr ⟨w, by split_ifs <;> rfl⟩
    · exact Or.inl rfl

theorem setArgsZ_width_cases (args : UT_Args) (f : RAY_VarianceFilter) :
    (setArgsZ args f).myZGradientWidth = f.myZGradientWidth
    ∨ ∃ v, (setArgsZ args f).myZGradientWidth = SYSclamp v 1 1024 := by
  unfold setArgsZ
  split
  · exact Or.inl rfl
  · dsimp only
    split
    · rename_i s _ _
      exact Or.inr ⟨s, by split_ifs <;> rfl⟩
    · exact Or.inl rfl

theorem setArgsOpID_width_cases (args : UT_Args) (f : RAY_VarianceFilter) :
    (setArgsOpID args f).myOpIDWidth = f.myOpIDWidth
    ∨ ∃ v, (setArgsOpID args f).myOpIDWidth = SYSclamp v 1 1024 := by
  cases ho : args.o with
  | none => exact Or.inl (by simp [setArgsOpID, ho])
  | some o => exact Or.inr ⟨o, setArgsOpID_width _ _ o ho⟩

/-- One `setArgs` call keeps the three widths in `[1, 1024]`. -/
theorem setArgs_widthsInRange (f : RAY_VarianceFilter) (args : UT_Args)
    (hf : f.widthsInRange) : (f.setArgs args).widthsInRange := by
  obtain ⟨hc, hz, ho⟩ := hf
  refine ⟨?_, ?_, ?_⟩
  · rw [RAY_VarianceFilter.setArgs, (setArgsZ_frame _ _).2.2.1, (setArgsOpID_frame _ _).2.2.1]
    rcases setArgsColour_width_cases args f with h | ⟨v, h⟩
    · rw [h]; exact hc
    · rw [h]; exact SYSclamp_mem v
  · rw [RAY_VarianceFilter.setArgs]
    rcases setArgsZ_width_cases args (setArgsOpID args (setArgsColour args f)) with h | ⟨v, h⟩
    · rw [h, (setArgsOpID_frame _ _).1, (setArgsColour_frame _ _).1]; exact hz
    · rw [h]; exact SYSclamp_mem v
  · rw [RAY_VarianceFilter.setArgs, (setArgsZ_frame _ _).1]
    rcases setArgsOpID_width_cases args (setArgsColour args f) with h | ⟨v, h⟩
    · rw [h, (setArgsColour_frame _ _).2.2.1]; exact ho
    · rw [h]; exact SYSclamp_mem v

theorem ctor_widthsInRange (raw : RAY_VarianceFilter) :
    (RAY_VarianceFilter.ctor raw).widthsInRange := by
  simp only [RAY_VarianceFilter.widthsInRange, RAY_VarianceFilter.ctor]
  norm_num

theorem setArgsSeq_widthsInRange (calls : List UT_Args) :
    ∀ f : RAY_VarianceFilter, f.widthsInRange → (setArgsSeq f calls).widthsInRange := by
  induction calls with
  | nil => intro f hf; exact hf
  | cons a rest ih =>
    intro f hf
    exact ih (f.setArgs a) (setArgs_widthsInRange f a hf)

/-- C15: after any sequence of `setArgs` calls on a default-constructed filter
the colour, z-depth and Op ID widths all lie in `[1, 1024]`; so a detector
whose enable flag is true has a width of at least `1`. -/
theorem setArgsSeq_width_spec (raw : RAY_VarianceFilter) (calls : List UT_Args) :
    (setArgsSeq (RAY_VarianceFilter.ctor raw) calls).widthsInRange
    ∧ ((setArgsSeq (RAY_VarianceFilter.ctor raw) calls).myUseColourGradient = true →
        1 ≤ (setArgsSeq (RAY_VarianceFilter.ctor raw) calls).myColourGradientWidth)
    ∧ ((setArgsSeq (RAY_VarianceFilter.ctor raw) calls).myUseZGradient = true →
        1 ≤ (setArgsSeq (RAY_VarianceFilter.ctor raw) calls).myZGradientWidth)
    ∧ ((setArgsSeq (RAY_VarianceFilter.ctor raw) calls).myUseOpID = true →
        1 ≤ (setArgsSeq (RAY_VarianceFilter.ctor raw) calls).myOpIDWidth) := by
  have h := setArgsSeq_widthsInRange calls _ (ctor_widthsInRange raw)
  exact ⟨h, fun _ => h.1.1, fun _ => h.2.1.1, fun _ => h.2.2.1⟩

theorem setArgsSeq_width_spec_witness :
    (setArgsSeq (RAY_VarianceFilter.ctor zeroStorage)
        [{ c := some 1, w := some 2000 }, { o := some (2 / 10) }]).myUseOpID = true
    ∧ 1 ≤ (setArgsSeq (RAY_VarianceFilter.ctor zeroStorage)
        [{ c := some 1, w := some 2000 }, { o := some (2 / 10) }]).myOpIDWidth := by
  have hflag : (setArgsSeq (RAY_VarianceFilter.ctor zeroStorage)
      [{ c := some 1, w := some 2000 }, { o := some (2 / 10) }]).myUseOpID = true := by
    norm_num [setArgsSeq, RAY_VarianceFilter.setArgs, setArgsZ, setArgsOpID, setArgsColour,
      RAY_VarianceFilter.ctor, zeroStorage, SYSclamp]
  exact ⟨hflag, (setArgsSeq_width_spec zeroStorage
    [{ c := some 1, w := some 2000 }, { o := some (2 / 10) }]).2.2.2 hflag⟩

/-! ## Destination layout and tile independence -/

/-- C13: with `destwidth`, `destheight`, `vectorsize ≥ 0`, `filter` writes
exactly `destwidth * destheight * vectorsize` values, and channel `i` of
destination pixel `(destx, desty)`, the value `maxRGB[i] - minRGB[i]` of that
pixel's scan, is stored at index
`(desty * destwidth + destx) * vectorsize + i`. -/
theorem filter_layout_spec (f : RAY_VarianceFilter) (vectorsize : Int)
    (colourdata : Int → ℚ) (sourcewidth sourceheight destwidth destheight : Int)
    (destxoffsetinsource destyoffsetinsource : Int)
    (hw : 0 ≤ destwidth) (hh : 0 ≤ destheight) (hv : 0 ≤ vectorsize) :
    (((f.filter vectorsize colourdata sourcewidth sourceheight destwidth destheight
        destxoffsetinsource destyoffsetinsource).length : Nat) : Int)
      = destwidth * destheight * vectorsize
    ∧ ∀ destx desty i : Int, 0 ≤ destx → destx < destwidth → 0 ≤ desty →
        desty < destheight → 0 ≤ i → i < vectorsize →
        (f.filter vectorsize colourdata sourcewidth sourceheight destwidth destheight
            destxoffsetinsource destyoffsetinsource)[((desty * destwidth + destx) * vectorsize
              + i).toNat]?
          = some ((scanPixel vectorsize colourdata sourcewidth
                (f.sampleBounds destxoffsetinsource destyoffsetinsource destx desty)).maxRGB i
              - (scanPixel vectorsize colourdata sourcewidth
                (f.sampleBounds destxoffsetinsource destyoffsetinsource destx desty)).minRGB i) := by
  refine ⟨?_, fun destx desty i hx0 hx hy0 hy hi0 hi =>
    filter_getElem? f vectorsize colourdata sourcewidth sourceheight destwidth destheight
      destxoffsetinsource destyoffsetinsource destx desty i hx0 hx hy0 hy hi0 hi⟩
  rw [filter_length]
  push_cast
  rw [Int.toNat_of_nonneg hw, Int.toNat_of_nonneg hh, Int.toNat_of_nonneg hv]
  ring

theorem filter_layout_spec_witness :
    (0 : Int) ≤ 2 ∧ (0 : Int) ≤ 3 ∧ (0 : Int) ≤ 4
    ∧ (((defaultFilter.filter 4 brightSource 10 10 2 3 1 1).length : Nat) : Int) = 2 * 3 * 4 :=
  ⟨by decide, by decide, by decide,
    (filter_layout_spec defaultFilter 4 brightSource 10 10 2 3 1 1
      (by decide) (by decide) (by decide)).1⟩

/-- The bounds of pixel `(destx, desty)` of a tile are the bounds of pixel
`(0, 0)` of the tile that starts at that pixel's block. -/
theorem sampleBounds_shift (f : RAY_VarianceFilter)
    (destxoffsetinsource destyoffsetinsource destx desty : Int) :
    f.sampleBounds destxoffsetinsource destyoffsetinsource destx desty
      = f.sampleBounds (destxoffsetinsource + destx * f.mySamplesPerPixelX)
          (destyoffsetinsource + desty * f.mySamplesPerPixelY) 0 0 := by
  simp only [RAY_VarianceFilter.sampleBounds, zero_mul, add_zero]

/-- C18: the channel vector `filter` writes for destination pixel
`(destx, desty)` of a tile with offset `(ox, oy)` is, channel by channel, the
vector a `1 × 1` tile call with offset
`(ox + destx * samplesPerPixelX, oy + desty * samplesPerPixelY)` writes for its
pixel `(0, 0)`, on the same source and geometry; that call writes `vectorsize`
values. -/
theorem filter_tile_independent (f : RAY_VarianceFilter) (vectorsize : Int)
    (colourdata : Int → ℚ) (sourcewidth sourceheight destwidth destheight : Int)
    (ox oy : Int) (destx desty : Int)
    (hx0 : 0 ≤ destx) (hx : destx < destwidth) (hy0 : 0 ≤ desty) (hy : desty < destheight) :
    (f.filter vectorsize colourdata sourcewidth sourceheight 1 1
        (ox + destx * f.mySamplesPerPixelX) (oy + desty * f.mySamplesPerPixelY)).length
      = vectorsize.toNat
    ∧ ∀ i : Int, 0 ≤ i → i < vectorsize →
        (f.filter vectorsize colourdata sourcewidth sourceheight destwidth destheight
            ox oy)[((desty * destwidth + destx) * vectorsize + i).toNat]?
          = (f.filter vectorsize colourdata sourcewidth sourceheight 1 1
              (ox + destx * f.mySamplesPerPixelX)
              (oy + desty * f.mySamplesPerPixelY))[i.toNat]? := by
  constructor
  · rw [filter_length]
    have h1 : (1 : Int).toNat = 1 := rfl
    rw [h1, Nat.one_mul, Nat.one_mul]
  · intro i hi0 hi
    have hsmall := filter_getElem? f vectorsize colourdata sourcewidth sourceheight 1 1
      (ox + destx * f.mySamplesPerPixelX) (oy + desty * f.mySamplesPerPixelY) 0 0 i
      (le_refl 0) (by norm_num) (le_refl 0) (by norm_num) hi0 hi
    have hidx : ((0 * 1 + 0) * vectorsize + i) = i := by ring
    rw [hidx] at hsmall
    rw [hsmall, filter_getElem? f vectorsize colourdata sourcewidth sourceheight destwidth
      destheight ox oy destx desty i hx0 hx hy0 hy hi0 hi, sampleBounds_shift]

theorem filter_tile_independent_witness :
    (0 : Int) ≤ 1 ∧ (1 : Int) < 2 ∧ (0 : Int) ≤ 2 ∧ (2 : Int) < 3
    ∧ (defaultFilter.filter 1 brightSource 10 10 2 3 1 1)[((2 * 2 + 1) * 1 + 0 : Int).toNat]?
        = (defaultFilter.filter 1 brightSource 10 10 1 1
            (1 + 1 * defaultFilter.mySamplesPerPixelX)
            (1 + 2 * defaultFilter.mySamplesPerPixelY))[(0 : Int).toNat]? :=
  ⟨by decide, by decide, by decide, by decide,
    (filter_tile_independent defaultFilter 1 brightSource 10 10 2 3 1 1 1 2
      (by decide) (by decide) (by decide) (by decide)).2 0 (le_refl 0) (by decide)⟩

/-! ## Geometry of the colour window -/

theorem prepFilter_fields (f : RAY_VarianceFilter) (samplesperpixelx samplesperpixely : Int) :
    (f.prepFilter samplesperpixelx samplesperpixely).mySamplesPerPixelX = samplesperpixelx
    ∧ (f.prepFilter samplesperpixelx samplesperpixely).mySamplesPerPixelY = samplesperpixely
    ∧ (f.prepFilter samplesperpixelx samplesperpixely).myColourSamplesHalfX
        = (RAYcomputeSumX2 samplesperpixelx f.myColourGradientWidth).2
    ∧ (f.prepFilter samplesperpixelx samplesperpixely).myColourSamplesHalfY
        = (RAYcomputeSumX2 samplesperpixely f.myColourGradientWidth).2 :=
  ⟨rfl, rfl, rfl, rfl⟩

/-- For a width of at least `1` the half-width is not negative, and it is at
least `1` for an even count: the window holds the sample at offset
`(n - 1) / 2` of the block, whatever the count. -/
theorem half_width_centre (n : Int) (width : ℚ) (hn : 1 ≤ n) (hwidth : 1 ≤ width) :
    n / 2 - (n - 1) / 2 ≤ (RAYcomputeSumX2 n width).2 := by
  by_cases hodd : n % 2 ≠ 0
  · have h := RAYcomputeSumX2_half_nonneg n width hn (by linarith)
    omega
  · have heven : n % 2 = 0 := by omega
    have h1 : (1 : Int) ≤ (RAYcomputeSumX2 n width).2 := by
      rw [RAYcomputeSumX2_even_half _ _ heven]
      refine Int.le_floor.mpr ?_
      have hp := one_le_floatHalfProduct n width (by omega) hwidth
      have := half_le_roundToFloat (floatHalfProduct n width + 1 / 2) 3 (by decide) (by decide)
        (by norm_num; linarith)
      unfold fadd
      push_cast at this ⊢
      linarith
    omega

/-- C16: for `samplesPerPixel ≥ 1` and a colour half-width `h ≥ 0` on each
axis, the colour window extends as many samples before the first sample of
the pixel's block as past its last sample; it holds `2h + 1` samples when
`samplesPerPixel` is odd and `2h` samples when it is even, which is the
number of offsets `RAYcomputeSumX2` sums when it stores the half-width `h`:
those of `[-h, h]` in the odd case and of `[-h, h - 1]` in the even case. -/
theorem colour_window_centred (f : RAY_VarianceFilter)
    (destxoffsetinsource destyoffsetinsource destx desty : Int)
    (hx : 1 ≤ f.mySamplesPerPixelX) (hy : 1 ≤ f.mySamplesPerPixelY)
    (hhx : 0 ≤ f.myColourSamplesHalfX) (hhy : 0 ≤ f.myColourSamplesHalfY) :
    ((f.sampleBounds destxoffsetinsource destyoffsetinsource destx desty).sourcefirstx
        - (f.sampleBounds destxoffsetinsource destyoffsetinsource destx desty).sourcefirstcx
      = (f.sampleBounds destxoffsetinsource destyoffsetinsource destx desty).sourcelastcx
        - (f.sampleBounds destxoffsetinsource destyoffsetinsource destx desty).sourcelastx)
    ∧ ((f.sampleBounds destxoffsetinsource destyoffsetinsource destx desty).sourcefirsty
        - (f.sampleBounds destxoffsetinsource destyoffsetinsource destx desty).sourcefirstcy
      = (f.sampleBounds destxoffsetinsource destyoffsetinsource destx desty).sourcelastcy
        - (f.sampleBounds destxoffsetinsource destyoffsetinsource destx desty).sourcelasty)
    ∧ (f.mySamplesPerPixelX % 2 ≠ 0 →
        (f.sampleBounds destxoffsetinsource destyoffsetinsource destx desty).sourcelastcx
          - (f.sampleBounds destxoffsetinsource destyoffsetinsource destx desty).sourcefirstcx + 1
          = 2 * f.myColourSamplesHalfX + 1
        ∧ ((Finset.Icc (-f.myColourSamplesHalfX) f.myColourSamplesHalfX).card : Int)
          = 2 * f.myColourSamplesHalfX + 1
        ∧ ∀ width, (RAYcomputeSumX2 f.mySamplesPerPixelX width).2 = f.myColourSamplesHalfX →
            (RAYcomputeSumX2 f.mySamplesPerPixelX width).1
              = ∑ i in Finset.Icc (-f.myColourSamplesHalfX) f.myColourSamplesHalfX,
                  ((i : ℚ) / (f.mySamplesPerPixelX : ℚ)) ^ 2)
    ∧ (f.mySamplesPerPixelX % 2 = 0 →
        (f.sampleBounds destxoffsetinsource destyoffsetinsource destx desty).sourcelastcx
          - (f.sampleBounds destxoffsetinsource destyoffsetinsource destx desty).sourcefirstcx + 1
          = 2 * f.myColourSamplesHalfX
        ∧ ((Finset.Ico (-f.myColourSamplesHalfX) f.myColourSamplesHalfX).card : Int)
          = 2 * f.myColourSamplesHalfX
        ∧ ∀ width, (RAYcomputeSumX2 f.mySamplesPerPixelX width).2 = f.myColourSamplesHalfX →
            (RAYcomputeSumX2 f.mySamplesPerPixelX width).1
              = ∑ i in Finset.Ico (-f.myColourSamplesHalfX) f.myColourSamplesHalfX,
                  (((i : ℚ) + 1 / 2) / (f.mySamplesPerPixelX : ℚ)) ^ 2)
    ∧ (f.mySamplesPerPixelY % 2 ≠ 0 →
        (f.sampleBounds destxoffsetinsource destyoffsetinsource destx desty).sourcelastcy
          - (f.sampleBounds destxoffsetinsource destyoffsetinsource destx desty).sourcefirstcy + 1
          = 2 * f.myColourSamplesHalfY + 1
        ∧ ((Finset.Icc (-f.myColourSamplesHalfY) f.myColourSamplesHalfY).card : Int)
          = 2 * f.myColourSamplesHalfY + 1
        ∧ ∀ width, (RAYcomputeSumX2 f.mySamplesPerPixelY width).2 = f.myColourSamplesHalfY →
            (RAYcomputeSumX2 f.mySamplesPerPixelY width).1
              = ∑ i in Finset.Icc (-f.myColourSamplesHalfY) f.myColourSamplesHalfY,
                  ((i : ℚ) / (f.mySamplesPerPixelY : ℚ)) ^ 2)
    ∧ (f.mySamplesPerPixelY % 2 = 0 →
        (f.sampleBounds destxoffsetinsource destyoffsetinsource destx desty).sourcelastcy
          - (f.sampleBounds destxoffsetinsource destyoffsetinsource destx desty).sourcefirstcy + 1
          = 2 * f.myColourSamplesHalfY
        ∧ ((Finset.Ico (-f.myColourSamplesHalfY) f.myColourSamplesHalfY).card : Int)
          = 2 * f.myColourSamplesHalfY
        ∧ ∀ width, (RAYcomputeSumX2 f.mySamplesPerPixelY width).2 = f.myColourSamplesHalfY →
            (RAYcomputeSumX2 f.mySamplesPerPixelY width).1
              = ∑ i in Finset.Ico (-f.myColourSamplesHalfY) f.myColourSamplesHalfY,
                  (((i : ℚ) + 1 / 2) / (f.mySamplesPerPixelY : ℚ)) ^ 2) := by
  have _ := hx
  have _ := hy
  simp only [RAY_VarianceFilter.sampleBounds, shiftRight_one, Int.card_Icc, Int.card_Ico]
  refine ⟨by omega, by omega, fun hodd => ⟨by omega, by omega, fun width hw => ?_⟩,
    fun heven => ⟨by omega, by omega, fun width hw => ?_⟩,
    fun hodd => ⟨by omega, by omega, fun width hw => ?_⟩,
    fun heven => ⟨by omega, by omega, fun width hw => ?_⟩⟩
  · rw [← hw, RAYcomputeSumX2_odd_half _ _ hodd]
    exact RAYcomputeSumX2_odd_sum _ _ hodd
  · rw [← hw, RAYcomputeSumX2_even_half _ _ heven]
    exact RAYcomputeSumX2_even_sum _ _ heven
  · rw [← hw, RAYcomputeSumX2_odd_half _ _ hodd]
    exact RAYcomputeSumX2_odd_sum _ _ hodd
  · rw [← hw, RAYcomputeSumX2_even_half _ _ heven]
    exact RAYcomputeSumX2_even_sum _ _ heven

theorem colour_window_centred_witness :
    (1 : Int) ≤ defaultFilter.mySamplesPerPixelX ∧ (0 : Int) ≤ defaultFilter.myColourSamplesHalfX
    ∧ (defaultFilter.sampleBounds 1 1 0 0).sourcefirstx
        - (defaultFilter.sampleBounds 1 1 0 0).sourcefirstcx
      = (defaultFilter.sampleBounds 1 1 0 0).sourcelastcx
        - (defaultFilter.sampleBounds 1 1 0 0).sourcelastx := by
  obtain ⟨h1, h2, h3, h4⟩ := prepFilter_one_colourHalf (RAY_VarianceFilter.ctor zeroStorage)
  have hw : (RAY_VarianceFilter.ctor zeroStorage).myColourGradientWidth = 3 := rfl
  rw [hw, floor_half_mul_three] at h3 h4
  have hx : (1 : Int) ≤ defaultFilter.mySamplesPerPixelX := by
    rw [defaultFilter, h1]
  have hy : (1 : Int) ≤ defaultFilter.mySamplesPerPixelY := by
    rw [defaultFilter, h2]
  have hhx : (0 : Int) ≤ defaultFilter.myColourSamplesHalfX := by
    rw [defaultFilter, h3]; decide
  have hhy : (0 : Int) ≤ defaultFilter.myColourSamplesHalfY := by
    rw [defaultFilter, h4]; decide
  exact ⟨hx, hhx, (colour_window_centred defaultFilter 1 1 0 0 hx hy hhx hhy).1⟩

theorem sum_Icc_sq_closed (n : ℚ) :
    ∀ k : Nat, ∑ i in Finset.Icc (-(k : Int)) (k : Int), ((i : ℚ) / n) ^ 2
      = (k : ℚ) * ((k : ℚ) + 1) * (2 * (k : ℚ) + 1) / (3 * n ^ 2) := by
  intro k
  induction k with
  | zero => simp
  | succ k ih =>
    have hsplit : Finset.Icc (-((k + 1 : Nat) : Int)) ((k + 1 : Nat) : Int)
        = insert (-((k : Int) + 1)) (insert ((k : Int) + 1) (Finset.Icc (-(k : Int)) (k : Int))) := by
      ext j
      simp only [Finset.mem_Icc, Finset.mem_insert]
      push_cast
      omega
    have h1 : ((k : Int) + 1) ∉ Finset.Icc (-(k : Int)) (k : Int) := by
      simp only [Finset.mem_Icc]; omega
    have h2 : (-((k : Int) + 1)) ∉ insert ((k : Int) + 1) (Finset.Icc (-(k : Int)) (k : Int)) := by
      simp only [Finset.mem_insert, Finset.mem_Icc]; omega
    rw [hsplit, Finset.sum_insert h2, Finset.sum_insert h1, ih]
    push_cast
    ring

theorem sum_Ico_sq_closed (n : ℚ) :
    ∀ k : Nat, ∑ i in Finset.Ico (-(k : Int)) (k : Int), (((i : ℚ) + 1 / 2) / n) ^ 2
      = (k : ℚ) * (4 * (k : ℚ) ^ 2 - 1) / (6 * n ^ 2) := by
  intro k
  induction k with
  | zero => simp
  | succ k ih =>
    have hsplit : Finset.Ico (-((k + 1 : Nat) : Int)) ((k + 1 : Nat) : Int)
        = insert (-((k : Int) + 1)) (insert (k : Int) (Finset.Ico (-(k : Int)) (k : Int))) := by
      ext j
      simp only [Finset.mem_Ico, Finset.mem_insert]
      push_cast
      omega
    have h1 : (k : Int) ∉ Finset.Ico (-(k : Int)) (k : Int) := by
      simp only [Finset.mem_Ico]; omega
    have h2 : (-((k : Int) + 1)) ∉ insert (k : Int) (Finset.Ico (-(k : Int)) (k : Int)) := by
      simp only [Finset.mem_insert, Finset.mem_Ico]; omega
    rw [hsplit, Finset.sum_insert h2, Finset.sum_insert h1, ih]
    push_cast
    ring

/-- C19: for `samplesPerPixel ≥ 1` and `width ≥ 0`, the sum `RAYcomputeSumX2`
computes by explicit summation equals the closed form at the half-width `h`
it stores: `h (h + 1) (2h + 1) / (3 n²)` for odd `n` and
`h (4h² - 1) / (6 n²)` for even `n`. -/
theorem RAYcomputeSumX2_closed_form (samplesperpixel : Int) (width : ℚ)
    (hspp : 1 ≤ samplesperpixel) (hwidth : 0 ≤ width) :
    (RAYcomputeSumX2 samplesperpixel width).1
        = closedFormSumX2 samplesperpixel (RAYcomputeSumX2 samplesperpixel width).2
    ∧ (samplesperpixel % 2 ≠ 0 →
        (RAYcomputeSumX2 samplesperpixel width).1
          = ((RAYcomputeSumX2 samplesperpixel width).2 : ℚ)
            * (((RAYcomputeSumX2 samplesperpixel width).2 : ℚ) + 1)
            * (2 * ((RAYcomputeSumX2 samplesperpixel width).2 : ℚ) + 1)
            / (3 * (samplesperpixel : ℚ) ^ 2))
    ∧ (samplesperpixel % 2 = 0 →
        (RAYcomputeSumX2 samplesperpixel width).1
          = ((RAYcomputeSumX2 samplesperpixel width).2 : ℚ)
            * (4 * ((RAYcomputeSumX2 samplesperpixel width).2 : ℚ) ^ 2 - 1)
            / (6 * (samplesperpixel : ℚ) ^ 2)) := by
  have hnn := RAYcomputeSumX2_half_nonneg samplesperpixel width hspp hwidth
  obtain ⟨k, hk⟩ := Int.eq_ofNat_of_zero_le hnn
  have hodd : samplesperpixel % 2 ≠ 0 →
      (RAYcomputeSumX2 samplesperpixel width).1
        = ((RAYcomputeSumX2 samplesperpixel width).2 : ℚ)
          * (((RAYcomputeSumX2 samplesperpixel width).2 : ℚ) + 1)
          * (2 * ((RAYcomputeSumX2 samplesperpixel width).2 : ℚ) + 1)
          / (3 * (samplesperpixel : ℚ) ^ 2) := by
    intro ho
    have hs := RAYcomputeSumX2_odd_sum samplesperpixel width ho
    rw [← RAYcomputeSumX2_odd_half samplesperpixel width ho, hk] at hs
    rw [hs, hk, sum_Icc_sq_closed]
    push_cast
    rfl
  have heven : samplesperpixel % 2 = 0 →
      (RAYcomputeSumX2 samplesperpixel width).1
        = ((RAYcomputeSumX2 samplesperpixel width).2 : ℚ)
          * (4 * ((RAYcomputeSumX2 samplesperpixel width).2 : ℚ) ^ 2 - 1)
          / (6 * (samplesperpixel : ℚ) ^ 2) := by
    intro he
    have hs := RAYcomputeSumX2_even_sum samplesperpixel width he
    rw [← RAYcomputeSumX2_even_half samplesperpixel width he, hk] at hs
    rw [hs, hk, sum_Ico_sq_closed]
    push_cast
    rfl
  refine ⟨?_, hodd, heven⟩
  unfold closedFormSumX2
  split_ifs with hp
  · exact hodd hp
  · exact heven (by omega)

theorem RAYcomputeSumX2_closed_form_witness :
    (1 : Int) ≤ 3 ∧ (0 : ℚ) ≤ 3
    ∧ (RAYcomputeSumX2 3 3).1 = closedFormSumX2 3 (RAYcomputeSumX2 3 3).2 :=
  ⟨by decide, by norm_num,
    (RAYcomputeSumX2_closed_form 3 3 (by decide) (by norm_num)).1⟩

/-! ## The value written, with the start values of the accumulators -/

theorem mem_colourWindow (b : SampleBounds) (p : Int × Int) :
    p ∈ b.colourWindow ↔ b.inColourWindow p := by
  simp only [SampleBounds.colourWindow, SampleBounds.inColourWindow, Finset.mem_product,
    Finset.mem_Icc, ge_iff_le]
  tauto

theorem IsMaxFrom.eq_max_sup' {init r : ℚ} {b : SampleBounds} {val : Int × Int → ℚ}
    (h : IsMaxFrom init b.inColourWindow val r) (hne : b.colourWindow.Nonempty) :
    r = max init (b.colourWindow.sup' hne val) := by
  obtain ⟨h1, h2, h3⟩ := h
  apply le_antisymm
  · rcases h3 with rfl | ⟨p, hp, rfl⟩
    · exact le_max_left _ _
    · exact le_trans (Finset.le_sup' val ((mem_colourWindow b p).mpr hp)) (le_max_right _ _)
  · exact max_le h1 (Finset.sup'_le hne val (fun p hp => h2 p ((mem_colourWindow b p).mp hp)))

theorem IsMinFrom.eq_min_inf' {init r : ℚ} {b : SampleBounds} {val : Int × Int → ℚ}
    (h : IsMinFrom init b.inColourWindow val r) (hne : b.colourWindow.Nonempty) :
    r = min init (b.colourWindow.inf' hne val) := by
  obtain ⟨h1, h2, h3⟩ := h
  apply le_antisymm
  · exact le_min h1 (Finset.le_inf' hne val (fun p hp => h2 p ((mem_colourWindow b p).mp hp)))
  · rcases h3 with rfl | ⟨p, hp, rfl⟩
    · exact min_le_left _ _
    · exact le_trans (min_le_right _ _) (Finset.inf'_le val ((mem_colourWindow b p).mpr hp))

/-- The value of one pixel and channel over a non-empty colour window. -/
theorem scanPixel_value (f : RAY_VarianceFilter) (vectorsize : Int)
    (colourdata : Int → ℚ) (sourcewidth : Int)
    (destxoffsetinsource destyoffsetinsource destx desty : Int)
    (i : Int) (hi0 : 0 ≤ i) (hi : i < vectorsize)
    (hne : (f.sampleBounds destxoffsetinsource destyoffsetinsource destx desty).colourWindow.Nonempty) :
    (scanPixel vectorsize colourdata sourcewidth
        (f.sampleBounds destxoffsetinsource destyoffsetinsource destx desty)).maxRGB i
      - (scanPixel vectorsize colourdata sourcewidth
        (f.sampleBounds destxoffsetinsource destyoffsetinsource destx desty)).minRGB i
      = max (-1000)
          ((f.sampleBounds destxoffsetinsource destyoffsetinsource destx desty).colourWindow.sup'
            hne (sampleValue vectorsize colourdata sourcewidth i))
        - min 1000
          ((f.sampleBounds destxoffsetinsource destyoffsetinsource destx desty).colourWindow.inf'
            hne (sampleValue vectorsize colourdata sourcewidth i)) := by
  obtain ⟨hmax, hmin⟩ := scanPixel_sampleBounds_extrema f vectorsize colourdata sourcewidth
    destxoffsetinsource destyoffsetinsource destx desty i hi0 hi
  rw [hmax.eq_max_sup' hne, hmin.eq_min_inf' hne]

theorem mem_blocks (blk : Int → List ℚ) :
    ∀ (n : Nat) (lo : Int) (v : ℚ), v ∈ blocks blk n lo →
      ∃ j, lo ≤ j ∧ j < lo + n ∧ v ∈ blk j := by
  intro n
  induction n with
  | zero => intro lo v hv; simp [blocks] at hv
  | succ n ih =>
    intro lo v hv
    rw [blocks, List.mem_append] at hv
    rcases hv with hv | hv
    · exact ⟨lo, le_refl _, by push_cast; omega, hv⟩
    · obtain ⟨j, h1, h2, h3⟩ := ih (lo + 1) v hv
      exact ⟨j, by omega, by push_cast; omega, h3⟩

/-- With the half-widths `prepFilter` computes from a colour width of at
least `1`, the colour window of every pixel contains the sample at offset
`(samplesPerPixel - 1) / 2` of the pixel's block on each axis, so it is not
empty. -/
theorem colourWindow_nonempty (f : RAY_VarianceFilter)
    (samplesperpixelx samplesperpixely : Int)
    (destxoffsetinsource destyoffsetinsource destx desty : Int)
    (hx : 1 ≤ samplesperpixelx) (hy : 1 ≤ samplesperpixely)
    (hwidth : 1 ≤ f.myColourGradientWidth) :
    ((f.prepFilter samplesperpixelx samplesperpixely).sampleBounds
      destxoffsetinsource destyoffsetinsource destx desty).colourWindow.Nonempty := by
  obtain ⟨h1, h2, h3, h4⟩ := prepFilter_fields f samplesperpixelx samplesperpixely
  have hgx := half_width_centre samplesperpixelx f.myColourGradientWidth hx hwidth
  have hgy := half_width_centre samplesperpixely f.myColourGradientWidth hy hwidth
  have hnx := RAYcomputeSumX2_half_nonneg samplesperpixelx f.myColourGradientWidth hx
    (by linarith)
  have hny := RAYcomputeSumX2_half_nonneg samplesperpixely f.myColourGradientWidth hy
    (by linarith)
  refine ⟨(destxoffsetinsource + destx * samplesperpixelx + (samplesperpixelx - 1) / 2,
    destyoffsetinsource + desty * samplesperpixely + (samplesperpixely - 1) / 2), ?_⟩
  rw [mem_colourWindow, inColourWindow_iff, h1, h2, h3, h4]
  dsimp only
  omega

/-- Over a non-empty colour window the value written for a channel is not
negative, whatever the samples hold. -/
theorem scanPixel_value_nonneg (f : RAY_VarianceFilter) (vectorsize : Int)
    (colourdata : Int → ℚ) (sourcewidth : Int)
    (destxoffsetinsource destyoffsetinsource destx desty : Int)
    (i : Int) (hi0 : 0 ≤ i) (hi : i < vectorsize)
    (hne : (f.sampleBounds destxoffsetinsource destyoffsetinsource destx desty).colourWindow.Nonempty) :
    0 ≤ (scanPixel vectorsize colourdata sourcewidth
        (f.sampleBounds destxoffsetinsource destyoffsetinsource destx desty)).maxRGB i
      - (scanPixel vectorsize colourdata sourcewidth
        (f.sampleBounds destxoffsetinsource destyoffsetinsource destx desty)).minRGB i := by
  rw [scanPixel_value f vectorsize colourdata sourcewidth destxoffsetinsource
    destyoffsetinsource destx desty i hi0 hi hne]
  obtain ⟨p, hp⟩ := hne
  have h1 := Finset.le_sup' (sampleValue vectorsize colourdata sourcewidth i) hp
  have h2 := Finset.inf'_le (sampleValue vectorsize colourdata sourcewidth i) hp
  have h3 := le_max_right (-1000 : ℚ)
    ((f.sampleBounds destxoffsetinsource destyoffsetinsource destx desty).colourWindow.sup'
      ⟨p, hp⟩ (sampleValue vectorsize colourdata sourcewidth i))
  have h4 := min_le_right (1000 : ℚ)
    ((f.sampleBounds destxoffsetinsource destyoffsetinsource destx desty).colourWindow.inf'
      ⟨p, hp⟩ (sampleValue vectorsize colourdata sourcewidth i))
  linarith

/-- Every value of the destination is the value of some pixel and channel. -/
theorem mem_filter (f : RAY_VarianceFilter) (vectorsize : Int)
    (colourdata : Int → ℚ) (sourcewidth sourceheight destwidth destheight : Int)
    (destxoffsetinsource destyoffsetinsource : Int) (v : ℚ)
    (hv : v ∈ f.filter vectorsize colourdata sourcewidth sourceheight destwidth destheight
      destxoffsetinsource destyoffsetinsource) :
    ∃ destx desty i : Int, 0 ≤ i ∧ i < vectorsize
      ∧ v = (scanPixel vectorsize colourdata sourcewidth
            (f.sampleBounds destxoffsetinsource destyoffsetinsource destx desty)).maxRGB i
          - (scanPixel vectorsize colourdata sourcewidth
            (f.sampleBounds destxoffsetinsource destyoffsetinsource destx desty)).minRGB i := by
  rw [filter_eq_blocks] at hv
  obtain ⟨desty, _, _, hrow⟩ := mem_blocks _ _ _ _ hv
  obtain ⟨destx, _, _, hpix⟩ := mem_blocks _ _ _ _ hrow
  rw [pixelBlock] at hpix
  obtain ⟨i, hi0, hi, hmem⟩ := mem_blocks _ _ _ _ hpix
  refine ⟨destx, desty, i, hi0, by omega, ?_⟩
  simpa using hmem

/-- C21: for a configuration reached from the default constructor by any
sequence of `setArgs` calls and `prepFilter` with `samplesPerPixelX ≥ 1` and
`samplesPerPixelY ≥ 1`, the colour window of every pixel is non-empty and
every value `filter` writes is `≥ 0`, for every source buffer. -/
theorem filter_output_nonneg (raw : RAY_VarianceFilter) (calls : List UT_Args)
    (samplesperpixelx samplesperpixely : Int)
    (hx : 1 ≤ samplesperpixelx) (hy : 1 ≤ samplesperpixely)
    (vectorsize : Int) (colourdata : Int → ℚ)
    (sourcewidth sourceheight destwidth destheight : Int)
    (destxoffsetinsource destyoffsetinsource : Int) :
    (∀ destx desty : Int,
      (((setArgsSeq (RAY_VarianceFilter.ctor raw) calls).prepFilter samplesperpixelx
        samplesperpixely).sampleBounds destxoffsetinsource destyoffsetinsource destx
        desty).colourWindow.Nonempty)
    ∧ ∀ v ∈ ((setArgsSeq (RAY_VarianceFilter.ctor raw) calls).prepFilter samplesperpixelx
        samplesperpixely).filter vectorsize colourdata sourcewidth sourceheight destwidth
        destheight destxoffsetinsource destyoffsetinsource, 0 ≤ v := by
  have hrange := setArgsSeq_widthsInRange calls _ (ctor_widthsInRange raw)
  have hne : ∀ destx desty : Int,
      (((setArgsSeq (RAY_VarianceFilter.ctor raw) calls).prepFilter samplesperpixelx
        samplesperpixely).sampleBounds destxoffsetinsource destyoffsetinsource destx
        desty).colourWindow.Nonempty :=
    fun destx desty => colourWindow_nonempty _ samplesperpixelx samplesperpixely
      destxoffsetinsource destyoffsetinsource destx desty hx hy hrange.1.1
  refine ⟨hne, fun v hv => ?_⟩
  obtain ⟨destx, desty, i, hi0, hi, rfl⟩ := mem_filter _ _ _ _ _ _ _ _ _ v hv
  exact scanPixel_value_nonneg _ vectorsize colourdata sourcewidth destxoffsetinsource
    destyoffsetinsource destx desty i hi0 hi (hne destx desty)

theorem filter_output_nonneg_witness :
    (1 : Int) ≤ 2 ∧ (1 : Int) ≤ 3
    ∧ ∀ v ∈ ((setArgsSeq (RAY_VarianceFilter.ctor zeroStorage)
          [{ c := some (-1) }, { o := some 2000 }]).prepFilter 2 3).filter
          3 brightSource 20 20 2 2 4 6, 0 ≤ v :=
  ⟨by decide, by decide,
    (filter_output_nonneg zeroStorage [{ c := some (-1) }, { o := some 2000 }] 2 3
      (by decide) (by decide) 3 brightSource 20 20 2 2 4 6).2⟩

/-- C22: two filter states that agree on `mySamplesPerPixelX`,
`mySamplesPerPixelY`, `myColourSamplesHalfX` and `myColourSamplesHalfY`
scan the same rectangle for every pixel and produce the same destination,
whatever their enable flags, thresholds, widths, normalising sums and z-depth
and Op ID half-widths are. -/
theorem filter_depends_only_on_colour_geometry (f g : RAY_VarianceFilter)
    (hx : f.mySamplesPerPixelX = g.mySamplesPerPixelX)
    (hy : f.mySamplesPerPixelY = g.mySamplesPerPixelY)
    (hcx : f.myColourSamplesHalfX = g.myColourSamplesHalfX)
    (hcy : f.myColourSamplesHalfY = g.myColourSamplesHalfY)
    (vectorsize : Int) (colourdata : Int → ℚ)
    (sourcewidth sourceheight destwidth destheight : Int)
    (destxoffsetinsource destyoffsetinsource : Int) :
    f.filter vectorsize colourdata sourcewidth sourceheight destwidth destheight
        destxoffsetinsource destyoffsetinsource
      = g.filter vectorsize colourdata sourcewidth sourceheight destwidth destheight
        destxoffsetinsource destyoffsetinsource
    ∧ ∀ (destx desty : Int) (p : Int × Int),
        (f.sampleBounds destxoffsetinsource destyoffsetinsource destx desty).inScanned p
          ↔ (g.sampleBounds destxoffsetinsource destyoffsetinsource destx desty).inScanned p :=
  ⟨filter_congr f g hx hy hcx hcy _ _ _ _ _ _ _ _,
    fun destx desty p => inScanned_congr f g hx hy hcx hcy _ _ destx desty p⟩

theorem filter_depends_only_on_colour_geometry_witness :
    defaultFilter.filter 3 brightSource 20 20 2 2 4 6
      = ({ defaultFilter with
            myUseColourGradient := false, myUseZGradient := false, myUseOpID := false,
            myColourGradientThreshold := 7, myZGradientThreshold := -1,
            myColourGradientWidth := 500, myZGradientWidth := 1024, myOpIDWidth := 1,
            myColourSumX2 := 9, myColourSumY2 := 9, myZSumX2 := 9, myZSumY2 := 9,
            myZSamplesHalfX := 512, myZSamplesHalfY := 512,
            myOpIDSamplesHalfX := 0, myOpIDSamplesHalfY := 77 }).filter
          3 brightSource 20 20 2 2 4 6 :=
  (filter_depends_only_on_colour_geometry defaultFilter _ rfl rfl rfl rfl
    3 brightSource 20 20 2 2 4 6).1

end HDK_Sample
